import Mathlib

/-!
Verification of the monitoring-server aggregate store
(src/server/monitoringserver: data_structures.rs, manager.rs).

The Rust code is embedded shallowly:
  - Rust f64 telemetry percentages become rationals.
  - Rust u64 counters become naturals.
  - std HashMap becomes an association list with replace-in-place insert.
  - Ipv4Addr::from_str becomes parseIpv4 (four dot-separated decimal
    octets, digits only, at most three digits, no leading zeros, each
    at most 255).
  - Result<T, String> becomes Except String T.
  - SystemTime timestamps carry no claim content and are omitted.
-/

/-- One decimal digit of the fuel-driven decimal printer.  natCharsAux
fuel n produces the decimal digits of n (most significant first) for
0 < n ≤ fuel, and is empty for n = 0. -/
def natCharsAux : Nat → Nat → List Char
  | 0, _ => []
  | _ + 1, 0 => []
  | fuel + 1, n + 1 =>
    natCharsAux fuel ((n + 1) / 10) ++ [Nat.digitChar ((n + 1) % 10)]

/-- Decimal representation of a natural number as a character list,
mirroring the Display impl used by the Rust format! macro. -/
def natChars (n : Nat) : List Char :=
  if n = 0 then ['0'] else natCharsAux n n

/-- Decimal representation of a natural number as a string. -/
def natStr (n : Nat) : String :=
  String.mk (natChars n)

/-- Embedding of format!("{}.{}.{}.{}", a, b, c, d) from
DataStore::generate_soc_id / generate_board_id. -/
def formatIp (a b c d : Nat) : String :=
  String.mk (natChars a ++ '.' :: (natChars b ++ '.' :: (natChars c ++ '.' :: natChars d)))

/-- Split a character list at every dot, as the octet separator of the
IPv4 parser does. -/
def splitOnDot : List Char → List (List Char)
  | [] => [[]]
  | c :: cs =>
    if c = '.' then [] :: splitOnDot cs
    else
      match splitOnDot cs with
      | [] => [[c]]
      | g :: gs => (c :: g) :: gs

/-- Numeric value of a decimal digit character. -/
def charVal (c : Char) : Nat := c.toNat - 48

/-- Value of a decimal digit string, most significant digit first. -/
def chToNat (cs : List Char) : Nat :=
  cs.foldl (fun a c => a * 10 + charVal c) 0

/-- An octet with more than one digit may not start with a zero;
Ipv4Addr::from_str rejects leading zeros. -/
def noLeadZero : List Char → Bool
  | c :: _ :: _ => c != '0'
  | _ => true

/-- Syntactic octet check of Ipv4Addr::from_str: nonempty, digits only,
at most three digits, no leading zero. -/
def isOctetStr (cs : List Char) : Bool :=
  !cs.isEmpty && cs.all (fun c => c.isDigit) && decide (cs.length ≤ 3) && noLeadZero cs

/-- Parse one octet: syntactic check plus the 255 bound enforced by u8. -/
def parseOctet (cs : List Char) : Option Nat :=
  if isOctetStr cs && decide (chToNat cs ≤ 255) then some (chToNat cs) else none

/-- Embedding of Ipv4Addr::from_str, returning the four octets. -/
def parseIpv4 (s : String) : Option (Nat × Nat × Nat × Nat) :=
  match splitOnDot s.toList with
  | [p0, p1, p2, p3] =>
    match parseOctet p0, parseOctet p1, parseOctet p2, parseOctet p3 with
    | some a, some b, some c, some d => some (a, b, c, d)
    | _, _, _, _ => none
  | _ => none

/-- Telemetry record of one compute node (common::monitoringserver::NodeInfo,
fields as listed in etcd_storage.rs). -/
structure NodeInfo where
  node_name : String
  ip : String
  cpu_usage : ℚ
  cpu_count : Nat
  gpu_count : Nat
  used_memory : Nat
  total_memory : Nat
  mem_usage : ℚ
  rx_bytes : Nat
  tx_bytes : Nat
  read_bytes : Nat
  write_bytes : Nat
  os : String
  arch : String
deriving DecidableEq

/-- Aggregated information from the nodes of one SoC (data_structures.rs,
struct SocInfo; the last_updated timestamp is omitted). -/
structure SocInfo where
  soc_id : String
  nodes : List NodeInfo
  total_cpu_usage : ℚ
  total_cpu_count : Nat
  total_gpu_count : Nat
  total_used_memory : Nat
  total_memory : Nat
  total_mem_usage : ℚ
  total_rx_bytes : Nat
  total_tx_bytes : Nat
  total_read_bytes : Nat
  total_write_bytes : Nat
deriving DecidableEq

/-- Aggregated information from the nodes of one board (data_structures.rs,
struct BoardInfo; the last_updated timestamp is omitted). -/
structure BoardInfo where
  board_id : String
  nodes : List NodeInfo
  socs : List SocInfo
  total_cpu_usage : ℚ
  total_cpu_count : Nat
  total_gpu_count : Nat
  total_used_memory : Nat
  total_memory : Nat
  total_mem_usage : ℚ
  total_rx_bytes : Nat
  total_tx_bytes : Nat
  total_read_bytes : Nat
  total_write_bytes : Nat
deriving DecidableEq

/-- Association-list embedding of std HashMap, keyed by strings. -/
abbrev AssocMap (α : Type) := List (String × α)

/-- HashMap lookup: first entry with the given key. -/
def mapLookup {α : Type} (k : String) : AssocMap α → Option α
  | [] => none
  | (k', v) :: rest => if k' = k then some v else mapLookup k rest

/-- HashMap insert: replace the entry with the given key in place, or
append a new entry. -/
def mapInsert {α : Type} (k : String) (v : α) : AssocMap α → AssocMap α
  | [] => [(k, v)]
  | (k', v') :: rest =>
    if k' = k then (k, v) :: rest else (k', v') :: mapInsert k v rest

/-- Keys of a map, in order. -/
def mapKeys {α : Type} (m : AssocMap α) : List String := m.map Prod.fst

/-- Data store for managing NodeInfo, SocInfo, and BoardInfo
(data_structures.rs, struct DataStore). -/
structure DataStore where
  nodes : AssocMap NodeInfo
  socs : AssocMap SocInfo
  boards : AssocMap BoardInfo
deriving DecidableEq

/-- DataStore::new, the empty store. -/
def DataStore.new : DataStore := ⟨[], [], []⟩

/-- DataStore::generate_soc_id: same first three octets plus the tens
band of the last octet. -/
def DataStore.generate_soc_id (ip : String) : Except String String :=
  match parseIpv4 ip with
  | none => Except.error ("Invalid IP address: " ++ ip)
  | some (a, b, c, d) => Except.ok (formatIp a b c (d / 10 * 10))

/-- DataStore::generate_board_id: same first three octets plus the
hundreds band of the last octet. -/
def DataStore.generate_board_id (ip : String) : Except String String :=
  match parseIpv4 ip with
  | none => Except.error ("Invalid IP address: " ++ ip)
  | some (a, b, c, d) => Except.ok (formatIp a b c (d / 100 * 100))

/-- DataStore::generate_board_id_from_soc_id delegates to
generate_board_id. -/
def DataStore.generate_board_id_from_soc_id (soc_id : String) : Except String String :=
  DataStore.generate_board_id soc_id

/-- Names of the members of an aggregate, in member-list order. -/
def namesOf (l : List NodeInfo) : List String := l.map NodeInfo.node_name

/-- Replace the first member with the given record's name by the record,
mirroring iter_mut().find in update_with_node. -/
def replaceNode (node_info : NodeInfo) : List NodeInfo → List NodeInfo
  | [] => []
  | m :: ms =>
    if m.node_name = node_info.node_name then node_info :: ms
    else m :: replaceNode node_info ms

/-- Whether some member carries the given node name. -/
def hasNodeNamed (name : String) (l : List NodeInfo) : Bool :=
  l.any (fun m => m.node_name == name)

/-- Find-and-update-or-push of SocInfo::update_with_node and
BoardInfo::update_with_node on the member list. -/
def upsertNodeList (l : List NodeInfo) (node_info : NodeInfo) : List NodeInfo :=
  if hasNodeNamed node_info.node_name l then replaceNode node_info l
  else l ++ [node_info]

/-- First member carrying the given node name. -/
def findNamed (name : String) : List NodeInfo → Option NodeInfo
  | [] => none
  | m :: ms => if m.node_name = name then some m else findNamed name ms

/-- SocInfo::recalculate_totals: averages of the usage percentages and
sums of every other metric, re-derived from the current member list. -/
def SocInfo.recalculate_totals (s : SocInfo) : SocInfo :=
  { s with
    total_cpu_usage :=
      if 0 < s.nodes.length then
        (s.nodes.map NodeInfo.cpu_usage).sum / (s.nodes.length : ℚ)
      else 0
    total_mem_usage :=
      if 0 < s.nodes.length then
        (s.nodes.map NodeInfo.mem_usage).sum / (s.nodes.length : ℚ)
      else 0
    total_cpu_count := (s.nodes.map NodeInfo.cpu_count).sum
    total_gpu_count := (s.nodes.map NodeInfo.gpu_count).sum
    total_used_memory := (s.nodes.map NodeInfo.used_memory).sum
    total_memory := (s.nodes.map NodeInfo.total_memory).sum
    total_rx_bytes := (s.nodes.map NodeInfo.rx_bytes).sum
    total_tx_bytes := (s.nodes.map NodeInfo.tx_bytes).sum
    total_read_bytes := (s.nodes.map NodeInfo.read_bytes).sum
    total_write_bytes := (s.nodes.map NodeInfo.write_bytes).sum }

/-- SocInfo::new: start from the first node's values, then recalculate. -/
def SocInfo.new (soc_id : String) (node_info : NodeInfo) : SocInfo :=
  SocInfo.recalculate_totals
    { soc_id := soc_id
      nodes := [node_info]
      total_cpu_usage := node_info.cpu_usage
      total_cpu_count := node_info.cpu_count
      total_gpu_count := node_info.gpu_count
      total_used_memory := node_info.used_memory
      total_memory := node_info.total_memory
      total_mem_usage := node_info.mem_usage
      total_rx_bytes := node_info.rx_bytes
      total_tx_bytes := node_info.tx_bytes
      total_read_bytes := node_info.read_bytes
      total_write_bytes := node_info.write_bytes }

/-- SocInfo::update_with_node: replace or append by name, then
recalculate all totals. -/
def SocInfo.update_with_node (s : SocInfo) (node_info : NodeInfo) : SocInfo :=
  SocInfo.recalculate_totals { s with nodes := upsertNodeList s.nodes node_info }

/-- BoardInfo::recalculate_totals, identical in shape to the SoC one. -/
def BoardInfo.recalculate_totals (b : BoardInfo) : BoardInfo :=
  { b with
    total_cpu_usage :=
      if 0 < b.nodes.length then
        (b.nodes.map NodeInfo.cpu_usage).sum / (b.nodes.length : ℚ)
      else 0
    total_mem_usage :=
      if 0 < b.nodes.length then
        (b.nodes.map NodeInfo.mem_usage).sum / (b.nodes.length : ℚ)
      else 0
    total_cpu_count := (b.nodes.map NodeInfo.cpu_count).sum
    total_gpu_count := (b.nodes.map NodeInfo.gpu_count).sum
    total_used_memory := (b.nodes.map NodeInfo.used_memory).sum
    total_memory := (b.nodes.map NodeInfo.total_memory).sum
    total_rx_bytes := (b.nodes.map NodeInfo.rx_bytes).sum
    total_tx_bytes := (b.nodes.map NodeInfo.tx_bytes).sum
    total_read_bytes := (b.nodes.map NodeInfo.read_bytes).sum
    total_write_bytes := (b.nodes.map NodeInfo.write_bytes).sum }

/-- BoardInfo::new: first node, empty SoC list (populated afterwards by
update_board_socs), then recalculate. -/
def BoardInfo.new (board_id : String) (node_info : NodeInfo) : BoardInfo :=
  BoardInfo.recalculate_totals
    { board_id := board_id
      nodes := [node_info]
      socs := []
      total_cpu_usage := node_info.cpu_usage
      total_cpu_count := node_info.cpu_count
      total_gpu_count := node_info.gpu_count
      total_used_memory := node_info.used_memory
      total_memory := node_info.total_memory
      total_mem_usage := node_info.mem_usage
      total_rx_bytes := node_info.rx_bytes
      total_tx_bytes := node_info.tx_bytes
      total_read_bytes := node_info.read_bytes
      total_write_bytes := node_info.write_bytes }

/-- BoardInfo::update_with_node: replace or append by name, then
recalculate all totals. -/
def BoardInfo.update_with_node (b : BoardInfo) (node_info : NodeInfo) : BoardInfo :=
  BoardInfo.recalculate_totals { b with nodes := upsertNodeList b.nodes node_info }

/-- The filter predicate of DataStore::update_board_socs: whether a SoC
belongs to the given board. -/
def socBelongsTo (board_id : String) (s : SocInfo) : Bool :=
  match DataStore.generate_board_id_from_soc_id s.soc_id with
  | Except.ok soc_board_id => soc_board_id == board_id
  | Except.error _ => false

/-- The SoC list DataStore::update_board_socs rebuilds: all stored SoCs
whose identifier maps to the given board. -/
def boardSocsFilter (socs : AssocMap SocInfo) (board_id : String) : List SocInfo :=
  (socs.map Prod.snd).filter (socBelongsTo board_id)

/-- DataStore::update_board_socs: rebuild the board's SoC list from the
current SoC mapping. -/
def DataStore.update_board_socs (ds : DataStore) (board_id : String) : DataStore :=
  match mapLookup board_id ds.boards with
  | some b =>
    { ds with
      boards := mapInsert board_id { b with socs := boardSocsFilter ds.socs board_id } ds.boards }
  | none => ds

/-- DataStore::update_soc_info: update the existing SocInfo or create a
new one. -/
def DataStore.update_soc_info (ds : DataStore) (soc_id : String) (node_info : NodeInfo) : DataStore :=
  match mapLookup soc_id ds.socs with
  | some s => { ds with socs := mapInsert soc_id (SocInfo.update_with_node s node_info) ds.socs }
  | none => { ds with socs := mapInsert soc_id (SocInfo.new soc_id node_info) ds.socs }

/-- DataStore::update_board_info: update the existing BoardInfo or
create a new one, then rebuild that board's SoC list. -/
def DataStore.update_board_info (ds : DataStore) (board_id : String) (node_info : NodeInfo) : DataStore :=
  let ds' :=
    match mapLookup board_id ds.boards with
    | some b =>
      { ds with boards := mapInsert board_id (BoardInfo.update_with_node b node_info) ds.boards }
    | none =>
      { ds with boards := mapInsert board_id (BoardInfo.new board_id node_info) ds.boards }
  DataStore.update_board_socs ds' board_id

/-- DataStore::store_node_info: validate the IP, derive the identifiers,
store the node and update the matching SoC and board aggregates. -/
def DataStore.store_node_info (ds : DataStore) (node_info : NodeInfo) : Except String DataStore :=
  match parseIpv4 node_info.ip with
  | none => Except.error ("Invalid IP address format: " ++ node_info.ip)
  | some _ =>
    match DataStore.generate_soc_id node_info.ip, DataStore.generate_board_id node_info.ip with
    | Except.ok soc_id, Except.ok board_id =>
      let ds1 := { ds with nodes := mapInsert node_info.node_name node_info ds.nodes }
      let ds2 := DataStore.update_soc_info ds1 soc_id node_info
      Except.ok (DataStore.update_board_info ds2 board_id node_info)
    | Except.error e, _ => Except.error e
    | _, Except.error e => Except.error e

/-- The mutating view of store_node_info on the &mut receiver: the store
is left untouched when the call returns an error. -/
def runStore (ds : DataStore) (node_info : NodeInfo) : DataStore :=
  match ds.store_node_info node_info with
  | Except.ok ds' => ds'
  | Except.error _ => ds

/-- One container descriptor of a ContainerList message
(common::monitoringserver, fields as used by manager.rs). -/
structure ContainerInfo where
  id : String
  names : List String
  image : String

/-- A per-node container-inventory message. -/
structure ContainerList where
  node_name : String
  containers : List ContainerInfo

/-- MonitoringServerManager::handle_container_list: the handler only
prints the received inventory; its result is the untouched store paired
with the produced log lines. -/
def handle_container_list (ds : DataStore) (cl : ContainerList) : DataStore × List String :=
  let header :=
    "[MonitoringServer] Received ContainerList from " ++ cl.node_name ++
      ": containers count=" ++ natStr cl.containers.length
  let detail := cl.containers.map (fun c =>
    "  Container: ID=" ++ c.id ++ ", Names=" ++ String.intercalate ", " c.names ++
      ", Image=" ++ c.image)
  (ds, header :: detail)

/-- States reachable from the empty store by successful upserts. -/
inductive Reachable : DataStore → Prop
  | empty : Reachable DataStore.new
  | step (ds : DataStore) (n : NodeInfo) (ds' : DataStore) :
      Reachable ds → ds.store_node_info n = Except.ok ds' → Reachable ds'

/-- The summed fields of a SocInfo equal the sums over its current
members and the averaged fields equal the means, zero when empty. -/
def socTotalsOK (s : SocInfo) : Prop :=
  s.total_cpu_usage =
    (if 0 < s.nodes.length then (s.nodes.map NodeInfo.cpu_usage).sum / (s.nodes.length : ℚ) else 0) ∧
  s.total_mem_usage =
    (if 0 < s.nodes.length then (s.nodes.map NodeInfo.mem_usage).sum / (s.nodes.length : ℚ) else 0) ∧
  s.total_cpu_count = (s.nodes.map NodeInfo.cpu_count).sum ∧
  s.total_gpu_count = (s.nodes.map NodeInfo.gpu_count).sum ∧
  s.total_used_memory = (s.nodes.map NodeInfo.used_memory).sum ∧
  s.total_memory = (s.nodes.map NodeInfo.total_memory).sum ∧
  s.total_rx_bytes = (s.nodes.map NodeInfo.rx_bytes).sum ∧
  s.total_tx_bytes = (s.nodes.map NodeInfo.tx_bytes).sum ∧
  s.total_read_bytes = (s.nodes.map NodeInfo.read_bytes).sum ∧
  s.total_write_bytes = (s.nodes.map NodeInfo.write_bytes).sum

/-- The summed fields of a BoardInfo equal the sums over its current
members and the averaged fields equal the means, zero when empty. -/
def boardTotalsOK (b : BoardInfo) : Prop :=
  b.total_cpu_usage =
    (if 0 < b.nodes.length then (b.nodes.map NodeInfo.cpu_usage).sum / (b.nodes.length : ℚ) else 0) ∧
  b.total_mem_usage =
    (if 0 < b.nodes.length then (b.nodes.map NodeInfo.mem_usage).sum / (b.nodes.length : ℚ) else 0) ∧
  b.total_cpu_count = (b.nodes.map NodeInfo.cpu_count).sum ∧
  b.total_gpu_count = (b.nodes.map NodeInfo.gpu_count).sum ∧
  b.total_used_memory = (b.nodes.map NodeInfo.used_memory).sum ∧
  b.total_memory = (b.nodes.map NodeInfo.total_memory).sum ∧
  b.total_rx_bytes = (b.nodes.map NodeInfo.rx_bytes).sum ∧
  b.total_tx_bytes = (b.nodes.map NodeInfo.tx_bytes).sum ∧
  b.total_read_bytes = (b.nodes.map NodeInfo.read_bytes).sum ∧
  b.total_write_bytes = (b.nodes.map NodeInfo.write_bytes).sum

/-- Well-formedness of one stored SocInfo: its identifier matches its
key, it is nonempty with pairwise distinct member names, every member's
address derives this SoC, and the totals are consistent. -/
structure SocWF (sid : String) (s : SocInfo) : Prop where
  id_eq : s.soc_id = sid
  nonempty : s.nodes ≠ []
  names_nodup : (namesOf s.nodes).Nodup
  mem_ip : ∀ r ∈ s.nodes, DataStore.generate_soc_id r.ip = Except.ok sid
  totals : socTotalsOK s

/-- Well-formedness of one stored BoardInfo, apart from its SoC list. -/
structure BoardWF (bid : String) (b : BoardInfo) : Prop where
  id_eq : b.board_id = bid
  nonempty : b.nodes ≠ []
  names_nodup : (namesOf b.nodes).Nodup
  mem_ip : ∀ r ∈ b.nodes, DataStore.generate_board_id r.ip = Except.ok bid
  totals : boardTotalsOK b

/-- The store invariant maintained by store_node_info. -/
structure StoreInv (ds : DataStore) : Prop where
  nodes_keys : (mapKeys ds.nodes).Nodup
  socs_keys : (mapKeys ds.socs).Nodup
  boards_keys : (mapKeys ds.boards).Nodup
  soc_wf : ∀ sid s, mapLookup sid ds.socs = some s → SocWF sid s
  board_wf : ∀ bid b, mapLookup bid ds.boards = some b → BoardWF bid b
  board_socs : ∀ bid b, mapLookup bid ds.boards = some b →
    b.socs = boardSocsFilter ds.socs bid
  node_name_eq : ∀ name r, mapLookup name ds.nodes = some r → r.node_name = name
  node_soc : ∀ name r, mapLookup name ds.nodes = some r →
    ∃ sid s, DataStore.generate_soc_id r.ip = Except.ok sid ∧
      mapLookup sid ds.socs = some s ∧ findNamed name s.nodes = some r
  node_board : ∀ name r, mapLookup name ds.nodes = some r →
    ∃ bid b, DataStore.generate_board_id r.ip = Except.ok bid ∧
      mapLookup bid ds.boards = some b ∧ findNamed name b.nodes = some r

/-- Scenario node n1: 10.0.0.201, CPU 50 percent, memory 40 percent. -/
def cn1 : NodeInfo :=
  { node_name := "n1", ip := "10.0.0.201", cpu_usage := 50, cpu_count := 4
    gpu_count := 1, used_memory := 1000, total_memory := 4000, mem_usage := 40
    rx_bytes := 10, tx_bytes := 20, read_bytes := 30, write_bytes := 40
    os := "linux", arch := "x86_64" }

/-- Scenario node n2: 10.0.0.205, CPU 70 percent, memory 60 percent. -/
def cn2 : NodeInfo :=
  { node_name := "n2", ip := "10.0.0.205", cpu_usage := 70, cpu_count := 8
    gpu_count := 0, used_memory := 2000, total_memory := 8000, mem_usage := 60
    rx_bytes := 1, tx_bytes := 2, read_bytes := 3, write_bytes := 4
    os := "linux", arch := "aarch64" }

/-- Scenario node n3: 10.0.0.215, CPU 10 percent, memory 10 percent. -/
def cn3 : NodeInfo :=
  { node_name := "n3", ip := "10.0.0.215", cpu_usage := 10, cpu_count := 2
    gpu_count := 2, used_memory := 500, total_memory := 2000, mem_usage := 10
    rx_bytes := 5, tx_bytes := 6, read_bytes := 7, write_bytes := 8
    os := "linux", arch := "x86_64" }

/-- A record carrying the malformed address of the error scenario. -/
def cbad : NodeInfo :=
  { cn1 with node_name := "bad", ip := "999.1.1.1" }

/-- A record with an empty node name and a valid address. -/
def cnoname : NodeInfo :=
  { cn1 with node_name := "" }

/-- Store after upserting n1 into the empty store. -/
def scn1 : DataStore := runStore DataStore.new cn1

/-- Store after upserting n1 then n2. -/
def scn2 : DataStore := runStore scn1 cn2

/-- Store after upserting n1, n2 then n3. -/
def scn3 : DataStore := runStore scn2 cn3

/-- The SoC aggregate stored under 10.0.0.200 after n1 and n2. -/
def scn2soc : SocInfo :=
  (mapLookup "10.0.0.200" scn2.socs).getD (SocInfo.new "0.0.0.0" cn1)

/-- The board aggregate stored under 10.0.0.200 after n1, n2 and n3. -/
def scn3board : BoardInfo :=
  (mapLookup "10.0.0.200" scn3.boards).getD (BoardInfo.new "0.0.0.0" cn1)

theorem mapKeys_nil {α : Type} : mapKeys ([] : AssocMap α) = [] := rfl

theorem mapKeys_cons {α : Type} (k0 : String) (v0 : α) (tl : AssocMap α) :
    mapKeys ((k0, v0) :: tl) = k0 :: mapKeys tl := rfl

theorem mapLookup_mapInsert_self {α : Type} (k : String) (v : α) (m : AssocMap α) :
    mapLookup k (mapInsert k v m) = some v := by
  induction m with
  | nil => simp [mapInsert, mapLookup]
  | cons hd tl ih =>
    obtain ⟨k', v'⟩ := hd
    by_cases h : k' = k
    · simp [mapInsert, mapLookup, h]
    · simp [mapInsert, mapLookup, h, ih]

theorem mapLookup_mapInsert_ne {α : Type} (k k' : String) (v : α) (m : AssocMap α)
    (h : k' ≠ k) : mapLookup k' (mapInsert k v m) = mapLookup k' m := by
  have hk : ¬ (k = k') := fun hh => h hh.symm
  induction m with
  | nil => simp [mapInsert, mapLookup, hk]
  | cons hd tl ih =>
    obtain ⟨k0, v0⟩ := hd
    by_cases h0 : k0 = k
    · subst h0
      simp [mapInsert, mapLookup, hk]
    · simp [mapInsert, mapLookup, h0, ih]

theorem mapInsert_mapInsert {α : Type} (k : String) (v1 v2 : α) (m : AssocMap α) :
    mapInsert k v2 (mapInsert k v1 m) = mapInsert k v2 m := by
  induction m with
  | nil => simp [mapInsert]
  | cons hd tl ih =>
    obtain ⟨k0, v0⟩ := hd
    by_cases h0 : k0 = k
    · simp [mapInsert, h0]
    · simp [mapInsert, h0, ih]

theorem mapInsert_lookup_eq {α : Type} (k : String) (v : α) (m : AssocMap α)
    (h : mapLookup k m = some v) : mapInsert k v m = m := by
  induction m with
  | nil => simp [mapLookup] at h
  | cons hd tl ih =>
    obtain ⟨k0, v0⟩ := hd
    by_cases h0 : k0 = k
    · subst h0
      simp [mapLookup] at h
      simp [mapInsert, h]
    · simp [mapLookup, h0] at h
      simp [mapInsert, h0, ih h]

theorem mem_mapKeys_mapInsert {α : Type} (x k : String) (v : α) (m : AssocMap α)
    (h : x ∈ mapKeys (mapInsert k v m)) : x = k ∨ x ∈ mapKeys m := by
  induction m with
  | nil =>
    rw [show mapInsert k v ([] : AssocMap α) = [(k, v)] from rfl, mapKeys_cons, mapKeys_nil] at h
    simp at h
    exact Or.inl h
  | cons hd tl ih =>
    obtain ⟨k0, v0⟩ := hd
    by_cases h0 : k0 = k
    · subst h0
      rw [show mapInsert k0 v ((k0, v0) :: tl) = (k0, v) :: tl from by simp [mapInsert]] at h
      rw [mapKeys_cons] at h
      rw [mapKeys_cons]
      simpa using h
    · rw [show mapInsert k v ((k0, v0) :: tl) = (k0, v0) :: mapInsert k v tl from by
        simp [mapInsert, h0]] at h
      rw [mapKeys_cons] at h
      rw [mapKeys_cons]
      rcases List.mem_cons.1 h with h | h
      · exact Or.inr (List.mem_cons.2 (Or.inl h))
      · rcases ih h with h' | h'
        · exact Or.inl h'
        · exact Or.inr (List.mem_cons.2 (Or.inr h'))

theorem mapKeys_nodup_mapInsert {α : Type} (k : String) (v : α) (m : AssocMap α)
    (h : (mapKeys m).Nodup) : (mapKeys (mapInsert k v m)).Nodup := by
  induction m with
  | nil =>
    rw [show mapInsert k v ([] : AssocMap α) = [(k, v)] from rfl, mapKeys_cons, mapKeys_nil]
    simp
  | cons hd tl ih =>
    obtain ⟨k0, v0⟩ := hd
    rw [mapKeys_cons, List.nodup_cons] at h
    by_cases h0 : k0 = k
    · subst h0
      rw [show mapInsert k0 v ((k0, v0) :: tl) = (k0, v) :: tl from by simp [mapInsert]]
      rw [mapKeys_cons, List.nodup_cons]
      exact h
    · rw [show mapInsert k v ((k0, v0) :: tl) = (k0, v0) :: mapInsert k v tl from by
        simp [mapInsert, h0]]
      rw [mapKeys_cons, List.nodup_cons]
      refine ⟨?_, ih h.2⟩
      intro hmem
      rcases mem_mapKeys_mapInsert _ _ _ _ hmem with h' | h'
      · exact h0 h'
      · exact h.1 h'

theorem mapLookup_mem {α : Type} (k : String) (v : α) (m : AssocMap α)
    (h : mapLookup k m = some v) : (k, v) ∈ m := by
  induction m with
  | nil => simp [mapLookup] at h
  | cons hd tl ih =>
    obtain ⟨k0, v0⟩ := hd
    by_cases h0 : k0 = k
    · subst h0
      simp [mapLookup] at h
      simp [h]
    · simp [mapLookup, h0] at h
      exact List.mem_cons.2 (Or.inr (ih h))

theorem mem_mapLookup_of_nodup {α : Type} (k : String) (v : α) (m : AssocMap α)
    (hnd : (mapKeys m).Nodup) (h : (k, v) ∈ m) : mapLookup k m = some v := by
  induction m with
  | nil => simp at h
  | cons hd tl ih =>
    obtain ⟨k0, v0⟩ := hd
    rw [mapKeys_cons, List.nodup_cons] at hnd
    rcases List.mem_cons.1 h with h1 | h1
    · have hk : k0 = k := (congrArg Prod.fst h1).symm
      have hv : v0 = v := (congrArg Prod.snd h1).symm
      simp [mapLookup, hk, hv]
    · by_cases h0 : k0 = k
      · subst h0
        exact absurd (by simpa [mapKeys] using List.mem_map_of_mem Prod.fst h1) hnd.1
      · simp [mapLookup, h0]
        exact ih hnd.2 h1

theorem filter_values_mapInsert {α : Type} (p : α → Bool) (k : String) (v : α)
    (m : AssocMap α) (hnew : p v = false)
    (hold : ∀ w, mapLookup k m = some w → p w = false) :
    ((mapInsert k v m).map Prod.snd).filter p = (m.map Prod.snd).filter p := by
  induction m with
  | nil => simp [mapInsert, List.filter, hnew]
  | cons hd tl ih =>
    obtain ⟨k0, v0⟩ := hd
    by_cases h0 : k0 = k
    · subst h0
      have hv0 : p v0 = false := hold v0 (by simp [mapLookup])
      rw [show mapInsert k0 v ((k0, v0) :: tl) = (k0, v) :: tl from by simp [mapInsert]]
      simp [List.filter, hnew, hv0]
    · rw [show mapInsert k v ((k0, v0) :: tl) = (k0, v0) :: mapInsert k v tl from by
        simp [mapInsert, h0]]
      have hold' : ∀ w, mapLookup k tl = some w → p w = false := by
        intro w hw
        exact hold w (by simp [mapLookup, h0, hw])
      simp only [List.map_cons, List.filter]
      rw [ih hold']

theorem namesOf_nil : namesOf [] = [] := rfl

theorem namesOf_cons (m : NodeInfo) (ms : List NodeInfo) :
    namesOf (m :: ms) = m.node_name :: namesOf ms := rfl

theorem hasNodeNamed_cons (x : String) (m : NodeInfo) (ms : List NodeInfo) :
    hasNodeNamed x (m :: ms) = ((m.node_name == x) || hasNodeNamed x ms) := rfl

theorem namesOf_replaceNode (n : NodeInfo) (l : List NodeInfo) :
    namesOf (replaceNode n l) = namesOf l := by
  induction l with
  | nil => rfl
  | cons m ms ih =>
    by_cases h : m.node_name = n.node_name
    · simp [replaceNode, h, namesOf_cons]
    · simp [replaceNode, h, namesOf_cons, ih]

theorem mem_replaceNode (r n : NodeInfo) (l : List NodeInfo)
    (h : r ∈ replaceNode n l) : r = n ∨ r ∈ l := by
  induction l with
  | nil => simp [replaceNode] at h
  | cons m ms ih =>
    by_cases h0 : m.node_name = n.node_name
    · rw [show replaceNode n (m :: ms) = n :: ms from by simp [replaceNode, h0]] at h
      rcases List.mem_cons.1 h with h1 | h1
      · exact Or.inl h1
      · exact Or.inr (List.mem_cons.2 (Or.inr h1))
    · rw [show replaceNode n (m :: ms) = m :: replaceNode n ms from by simp [replaceNode, h0]] at h
      rcases List.mem_cons.1 h with h1 | h1
      · exact Or.inr (List.mem_cons.2 (Or.inl h1))
      · rcases ih h1 with h2 | h2
        · exact Or.inl h2
        · exact Or.inr (List.mem_cons.2 (Or.inr h2))

theorem hasNodeNamed_iff (x : String) (l : List NodeInfo) :
    hasNodeNamed x l = true ↔ x ∈ namesOf l := by
  induction l with
  | nil => simp [hasNodeNamed, namesOf_nil]
  | cons m ms ih =>
    rw [hasNodeNamed_cons, namesOf_cons]
    simp only [Bool.or_eq_true, beq_iff_eq, List.mem_cons, ih]
    constructor
    · rintro (h | h)
      · exact Or.inl h.symm
      · exact Or.inr h
    · rintro (h | h)
      · exact Or.inl h.symm
      · exact Or.inr h

theorem upsertNodeList_ne_nil (l : List NodeInfo) (n : NodeInfo) :
    upsertNodeList l n ≠ [] := by
  cases hh : hasNodeNamed n.node_name l with
  | true =>
    cases l with
    | nil => simp [hasNodeNamed] at hh
    | cons m ms =>
      by_cases h0 : m.node_name = n.node_name <;>
        simp [upsertNodeList, hh, replaceNode, h0]
  | false => simp [upsertNodeList, hh]

theorem namesOf_append (l1 l2 : List NodeInfo) :
    namesOf (l1 ++ l2) = namesOf l1 ++ namesOf l2 := by
  simp [namesOf]

theorem namesOf_upsert_nodup (l : List NodeInfo) (n : NodeInfo)
    (h : (namesOf l).Nodup) : (namesOf (upsertNodeList l n)).Nodup := by
  cases hh : hasNodeNamed n.node_name l with
  | true => simpa [upsertNodeList, hh, namesOf_replaceNode] using h
  | false =>
    have hx : n.node_name ∉ namesOf l := by
      intro hmem
      rw [← hasNodeNamed_iff] at hmem
      rw [hh] at hmem
      exact Bool.false_ne_true hmem
    rw [show upsertNodeList l n = l ++ [n] from by simp [upsertNodeList, hh]]
    rw [namesOf_append]
    rw [List.nodup_append]
    refine ⟨h, List.nodup_singleton _, ?_⟩
    intro a ha hb
    rw [show namesOf [n] = [n.node_name] from rfl] at hb
    rw [List.mem_singleton] at hb
    subst hb
    exact hx ha

theorem mem_upsert (r n : NodeInfo) (l : List NodeInfo)
    (h : r ∈ upsertNodeList l n) : r = n ∨ r ∈ l := by
  cases hh : hasNodeNamed n.node_name l with
  | true =>
    rw [show upsertNodeList l n = replaceNode n l from by simp [upsertNodeList, hh]] at h
    exact mem_replaceNode r n l h
  | false =>
    rw [show upsertNodeList l n = l ++ [n] from by simp [upsertNodeList, hh]] at h
    rcases List.mem_append.1 h with h1 | h1
    · exact Or.inr h1
    · exact Or.inl (by simpa using h1)

theorem self_mem_replaceNode (n : NodeInfo) (l : List NodeInfo)
    (h : hasNodeNamed n.node_name l = true) : n ∈ replaceNode n l := by
  induction l with
  | nil => simp [hasNodeNamed] at h
  | cons m ms ih =>
    by_cases h0 : m.node_name = n.node_name
    · simp [replaceNode, h0]
    · rw [hasNodeNamed_cons] at h
      have h' : hasNodeNamed n.node_name ms = true := by
        simp only [Bool.or_eq_true, beq_iff_eq] at h
        rcases h with h1 | h1
        · exact absurd h1 h0
        · exact h1
      rw [show replaceNode n (m :: ms) = m :: replaceNode n ms from by simp [replaceNode, h0]]
      exact List.mem_cons.2 (Or.inr (ih h'))

theorem self_mem_upsert (l : List NodeInfo) (n : NodeInfo) :
    n ∈ upsertNodeList l n := by
  cases hh : hasNodeNamed n.node_name l with
  | true =>
    rw [show upsertNodeList l n = replaceNode n l from by simp [upsertNodeList, hh]]
    exact self_mem_replaceNode n l hh
  | false =>
    rw [show upsertNodeList l n = l ++ [n] from by simp [upsertNodeList, hh]]
    simp

theorem findNamed_replaceNode_self (n : NodeInfo) (l : List NodeInfo)
    (h : hasNodeNamed n.node_name l = true) :
    findNamed n.node_name (replaceNode n l) = some n := by
  induction l with
  | nil => simp [hasNodeNamed] at h
  | cons m ms ih =>
    by_cases h0 : m.node_name = n.node_name
    · simp [replaceNode, h0, findNamed]
    · rw [hasNodeNamed_cons] at h
      have h' : hasNodeNamed n.node_name ms = true := by
        simp only [Bool.or_eq_true, beq_iff_eq] at h
        rcases h with h1 | h1
        · exact absurd h1 h0
        · exact h1
      rw [show replaceNode n (m :: ms) = m :: replaceNode n ms from by simp [replaceNode, h0]]
      rw [show findNamed n.node_name (m :: replaceNode n ms) =
        findNamed n.node_name (replaceNode n ms) from by simp [findNamed, h0]]
      exact ih h'

theorem findNamed_append_self (n : NodeInfo) (l : List NodeInfo)
    (h : hasNodeNamed n.node_name l = false) :
    findNamed n.node_name (l ++ [n]) = some n := by
  induction l with
  | nil => simp [findNamed]
  | cons m ms ih =>
    rw [hasNodeNamed_cons] at h
    have hsplit := Bool.or_eq_false_iff.1 h
    have hm : ¬ (m.node_name = n.node_name) := by
      intro hc
      rw [beq_eq_false_iff_ne] at hsplit
      exact hsplit.1 hc
    rw [List.cons_append]
    rw [show findNamed n.node_name (m :: (ms ++ [n])) =
      findNamed n.node_name (ms ++ [n]) from by simp [findNamed, hm]]
    exact ih hsplit.2

theorem findNamed_upsert_self (l : List NodeInfo) (n : NodeInfo) :
    findNamed n.node_name (upsertNodeList l n) = some n := by
  cases hh : hasNodeNamed n.node_name l with
  | true =>
    rw [show upsertNodeList l n = replaceNode n l from by simp [upsertNodeList, hh]]
    exact findNamed_replaceNode_self n l hh
  | false =>
    rw [show upsertNodeList l n = l ++ [n] from by simp [upsertNodeList, hh]]
    exact findNamed_append_self n l hh

theorem findNamed_replaceNode_other (x : String) (n : NodeInfo) (l : List NodeInfo)
    (hx : x ≠ n.node_name) : findNamed x (replaceNode n l) = findNamed x l := by
  induction l with
  | nil => rfl
  | cons m ms ih =>
    by_cases h0 : m.node_name = n.node_name
    · have hnx : ¬ (n.node_name = x) := fun hh => hx hh.symm
      have hmx : ¬ (m.node_name = x) := by rw [h0]; exact hnx
      rw [show replaceNode n (m :: ms) = n :: ms from by simp [replaceNode, h0]]
      simp [findNamed, hnx, hmx]
    · by_cases h1 : m.node_name = x
      · rw [show replaceNode n (m :: ms) = m :: replaceNode n ms from by simp [replaceNode, h0]]
        simp [findNamed, h1]
      · rw [show replaceNode n (m :: ms) = m :: replaceNode n ms from by simp [replaceNode, h0]]
        simp [findNamed, h1, ih]

theorem findNamed_append_other (x : String) (n : NodeInfo) (l : List NodeInfo)
    (hx : x ≠ n.node_name) : findNamed x (l ++ [n]) = findNamed x l := by
  induction l with
  | nil =>
    have hnx : ¬ (n.node_name = x) := fun hh => hx hh.symm
    simp [findNamed, hnx]
  | cons m ms ih =>
    by_cases h1 : m.node_name = x
    · simp [findNamed, h1]
    · simp [findNamed, h1, ih]

theorem findNamed_upsert_other (x : String) (l : List NodeInfo) (n : NodeInfo)
    (hx : x ≠ n.node_name) :
    findNamed x (upsertNodeList l n) = findNamed x l := by
  cases hh : hasNodeNamed n.node_name l with
  | true =>
    rw [show upsertNodeList l n = replaceNode n l from by simp [upsertNodeList, hh]]
    exact findNamed_replaceNode_other x n l hx
  | false =>
    rw [show upsertNodeList l n = l ++ [n] from by simp [upsertNodeList, hh]]
    exact findNamed_append_other x n l hx

theorem findNamed_mem (x : String) (l : List NodeInfo) (r : NodeInfo)
    (h : findNamed x l = some r) : r ∈ l := by
  induction l with
  | nil => simp [findNamed] at h
  | cons m ms ih =>
    by_cases h0 : m.node_name = x
    · rw [show findNamed x (m :: ms) = some m from by simp [findNamed, h0]] at h
      exact List.mem_cons.2 (Or.inl (Option.some.inj h).symm)
    · rw [show findNamed x (m :: ms) = findNamed x ms from by simp [findNamed, h0]] at h
      exact List.mem_cons.2 (Or.inr (ih h))

theorem findNamed_name (x : String) (l : List NodeInfo) (r : NodeInfo)
    (h : findNamed x l = some r) : r.node_name = x := by
  induction l with
  | nil => simp [findNamed] at h
  | cons m ms ih =>
    by_cases h0 : m.node_name = x
    · rw [show findNamed x (m :: ms) = some m from by simp [findNamed, h0]] at h
      rw [← Option.some.inj h]
      exact h0
    · rw [show findNamed x (m :: ms) = findNamed x ms from by simp [findNamed, h0]] at h
      exact ih h

theorem count_eq_one_of_names_nodup (r : NodeInfo) (l : List NodeInfo)
    (hnd : (namesOf l).Nodup) (hmem : r ∈ l) : l.count r = 1 := by
  induction l with
  | nil => simp at hmem
  | cons m ms ih =>
    rw [namesOf_cons, List.nodup_cons] at hnd
    rcases List.mem_cons.1 hmem with h1 | h1
    · subst h1
      have hnot : r ∉ ms := fun hc => hnd.1 (List.mem_map_of_mem NodeInfo.node_name hc)
      rw [List.count_cons_self, List.count_eq_zero.2 hnot]
    · have hne : r ≠ m := by
        intro hc
        subst hc
        exact hnd.1 (List.mem_map_of_mem NodeInfo.node_name h1)
      rw [List.count_cons_of_ne hne]
      exact ih hnd.2 h1

theorem digitChar_isDigit : ∀ d < 10, (Nat.digitChar d).isDigit = true := by decide

theorem charVal_digitChar : ∀ d < 10, charVal (Nat.digitChar d) = d := by decide

theorem digitChar_ne_zero : ∀ d < 10, 0 < d → Nat.digitChar d ≠ '0' := by decide

theorem isDigit_ne_dot (c : Char) (h : c.isDigit = true) : c ≠ '.' := by
  intro hc
  subst hc
  exact absurd h (by decide)

theorem natCharsAux_zero (fuel : Nat) : natCharsAux fuel 0 = [] := by
  cases fuel <;> rfl

theorem natCharsAux_succ (f m : Nat) :
    natCharsAux (f + 1) (m + 1) =
      natCharsAux f ((m + 1) / 10) ++ [Nat.digitChar ((m + 1) % 10)] := rfl

theorem natCharsAux_digits :
    ∀ fuel n c, c ∈ natCharsAux fuel n → ∃ d, d < 10 ∧ c = Nat.digitChar d := by
  intro fuel
  induction fuel with
  | zero =>
    intro n c h
    simp [natCharsAux] at h
  | succ f ih =>
    intro n c h
    cases n with
    | zero => simp [natCharsAux] at h
    | succ m =>
      rw [natCharsAux_succ] at h
      rcases List.mem_append.1 h with h1 | h1
      · exact ih _ _ h1
      · rw [List.mem_singleton] at h1
        exact ⟨(m + 1) % 10, Nat.mod_lt _ (by norm_num), h1⟩

theorem natCharsAux_length :
    ∀ fuel n k, n ≤ fuel → n < 10 ^ k → (natCharsAux fuel n).length ≤ k := by
  intro fuel
  induction fuel with
  | zero =>
    intro n k _ _
    simp [natCharsAux]
  | succ f ih =>
    intro n k hn hk
    cases n with
    | zero => simp [natCharsAux]
    | succ m =>
      cases k with
      | zero =>
        rw [pow_zero] at hk
        omega
      | succ k' =>
        rw [natCharsAux_succ, List.length_append, List.length_singleton]
        have h1 : (m + 1) / 10 ≤ f := by omega
        have h2 : (m + 1) / 10 < 10 ^ k' := by
          rw [Nat.div_lt_iff_lt_mul (by norm_num : 0 < 10)]
          calc m + 1 < 10 ^ (k' + 1) := hk
          _ = 10 ^ k' * 10 := by ring
        have := ih _ _ h1 h2
        omega

theorem natCharsAux_head :
    ∀ fuel n, 0 < n → n ≤ fuel → ∃ c cs, natCharsAux fuel n = c :: cs ∧ c ≠ '0' := by
  intro fuel
  induction fuel with
  | zero =>
    intro n h1 h2
    omega
  | succ f ih =>
    intro n h1 h2
    cases n with
    | zero => omega
    | succ m =>
      rw [natCharsAux_succ]
      by_cases hq : (m + 1) / 10 = 0
      · rw [hq, natCharsAux_zero, List.nil_append]
        have hm : m + 1 < 10 := by omega
        have hmod : (m + 1) % 10 = m + 1 := Nat.mod_eq_of_lt hm
        refine ⟨Nat.digitChar ((m + 1) % 10), [], rfl, ?_⟩
        rw [hmod]
        exact digitChar_ne_zero (m + 1) hm (Nat.succ_pos m)
      · obtain ⟨c, cs, hrec, hc⟩ := ih ((m + 1) / 10) (Nat.pos_of_ne_zero hq) (by omega)
        rw [hrec, List.cons_append]
        exact ⟨c, cs ++ [Nat.digitChar ((m + 1) % 10)], rfl, hc⟩

theorem foldl_natCharsAux :
    ∀ fuel n acc, n ≤ fuel →
      (natCharsAux fuel n).foldl (fun a c => a * 10 + charVal c) acc
        = acc * 10 ^ (natCharsAux fuel n).length + n := by
  intro fuel
  induction fuel with
  | zero =>
    intro n acc h
    have hn : n = 0 := Nat.le_zero.1 h
    subst hn
    simp [natCharsAux]
  | succ f ih =>
    intro n acc h
    cases n with
    | zero => simp [natCharsAux_zero]
    | succ m =>
      rw [natCharsAux_succ, List.foldl_append]
      rw [show List.foldl (fun a c => a * 10 + charVal c)
        (List.foldl (fun a c => a * 10 + charVal c) acc (natCharsAux f ((m + 1) / 10)))
        [Nat.digitChar ((m + 1) % 10)]
        = (List.foldl (fun a c => a * 10 + charVal c) acc (natCharsAux f ((m + 1) / 10))) * 10
          + charVal (Nat.digitChar ((m + 1) % 10)) from rfl]
      rw [ih _ acc (by omega)]
      rw [charVal_digitChar _ (Nat.mod_lt _ (by norm_num))]
      rw [List.length_append, List.length_singleton]
      have hdm : 10 * ((m + 1) / 10) + (m + 1) % 10 = m + 1 := Nat.div_add_mod (m + 1) 10
      rw [pow_succ]
      generalize (natCharsAux f ((m + 1) / 10)).length = L
      generalize (10 : Nat) ^ L = P
      have hring : (acc * P + (m + 1) / 10) * 10 + (m + 1) % 10
          = acc * (P * 10) + (10 * ((m + 1) / 10) + (m + 1) % 10) := by ring
      rw [hring, hdm]

theorem chToNat_natChars (n : Nat) (h : 0 < n) : chToNat (natChars n) = n := by
  rw [natChars, if_neg (Nat.pos_iff_ne_zero.1 h)]
  unfold chToNat
  rw [foldl_natCharsAux n n 0 (le_refl n)]
  simp

theorem natChars_digits (n : Nat) (c : Char) (h : c ∈ natChars n) : c.isDigit = true := by
  rw [natChars] at h
  by_cases h0 : n = 0
  · rw [if_pos h0, List.mem_singleton] at h
    subst h
    decide
  · rw [if_neg h0] at h
    obtain ⟨d, hd, hc⟩ := natCharsAux_digits n n c h
    subst hc
    exact digitChar_isDigit d hd

theorem natChars_ne_nil (n : Nat) : natChars n ≠ [] := by
  rw [natChars]
  by_cases h0 : n = 0
  · rw [if_pos h0]
    simp
  · rw [if_neg h0]
    obtain ⟨c, cs, heq, _⟩ := natCharsAux_head n n (Nat.pos_of_ne_zero h0) (le_refl n)
    rw [heq]
    simp

theorem noLeadZero_natChars (n : Nat) : noLeadZero (natChars n) = true := by
  rw [natChars]
  by_cases h0 : n = 0
  · rw [if_pos h0]
    rfl
  · rw [if_neg h0]
    obtain ⟨c, cs, heq, hc⟩ := natCharsAux_head n n (Nat.pos_of_ne_zero h0) (le_refl n)
    rw [heq]
    cases cs with
    | nil => rfl
    | cons c2 cs2 =>
      rw [show noLeadZero (c :: c2 :: cs2) = (c != '0') from rfl]
      simp [hc]

theorem natChars_length (n : Nat) (h : n ≤ 255) : (natChars n).length ≤ 3 := by
  rw [natChars]
  by_cases h0 : n = 0
  · rw [if_pos h0]
    simp
  · rw [if_neg h0]
    exact natCharsAux_length n n 3 (le_refl n)
      (lt_of_le_of_lt h (by norm_num))

theorem dot_not_mem_natChars (n : Nat) : '.' ∉ natChars n := by
  intro h
  exact absurd (natChars_digits n '.' h) (by decide)

theorem parseOctet_natChars (n : Nat) (h : n ≤ 255) : parseOctet (natChars n) = some n := by
  have hval : chToNat (natChars n) = n := by
    by_cases h0 : n = 0
    · subst h0
      decide
    · exact chToNat_natChars n (Nat.pos_of_ne_zero h0)
  have hne : (natChars n).isEmpty = false := by
    cases hnc : natChars n with
    | nil => exact absurd hnc (natChars_ne_nil n)
    | cons a l => rfl
  have hall : (natChars n).all (fun c => c.isDigit) = true := by
    rw [List.all_eq_true]
    intro c hcmem
    exact natChars_digits n c hcmem
  have hoct : isOctetStr (natChars n) = true := by
    rw [isOctetStr, hne, hall, noLeadZero_natChars]
    simp [natChars_length n h]
  rw [parseOctet, hoct, hval]
  simp [h]

theorem splitOnDot_no_dot (cs : List Char) (h : '.' ∉ cs) : splitOnDot cs = [cs] := by
  induction cs with
  | nil => rfl
  | cons c cs2 ih =>
    have hc : ¬ (c = '.') := fun hh => h (hh ▸ List.mem_cons_self c cs2)
    have h2 : '.' ∉ cs2 := fun hh => h (List.mem_cons.2 (Or.inr hh))
    simp [splitOnDot, hc, ih h2]

theorem splitOnDot_append (xs rest : List Char) (h : '.' ∉ xs) :
    splitOnDot (xs ++ '.' :: rest) = xs :: splitOnDot rest := by
  induction xs with
  | nil => simp [splitOnDot]
  | cons c cs ih =>
    have hc : ¬ (c = '.') := fun hh => h (hh ▸ List.mem_cons_self c cs)
    have h2 : '.' ∉ cs := fun hh => h (List.mem_cons.2 (Or.inr hh))
    rw [List.cons_append]
    simp [splitOnDot, hc, ih h2]

theorem parseIpv4_formatIp (a b c d : Nat)
    (ha : a ≤ 255) (hb : b ≤ 255) (hc : c ≤ 255) (hd : d ≤ 255) :
    parseIpv4 (formatIp a b c d) = some (a, b, c, d) := by
  unfold parseIpv4 formatIp
  rw [show (String.mk (natChars a ++ '.' :: (natChars b ++ '.' :: (natChars c ++ '.' :: natChars d)))).toList
      = natChars a ++ '.' :: (natChars b ++ '.' :: (natChars c ++ '.' :: natChars d)) from rfl]
  rw [splitOnDot_append _ _ (dot_not_mem_natChars a)]
  rw [splitOnDot_append _ _ (dot_not_mem_natChars b)]
  rw [splitOnDot_append _ _ (dot_not_mem_natChars c)]
  rw [splitOnDot_no_dot _ (dot_not_mem_natChars d)]
  simp [parseOctet_natChars a ha, parseOctet_natChars b hb,
    parseOctet_natChars c hc, parseOctet_natChars d hd]

theorem parseOctet_le (cs : List Char) (v : Nat) (h : parseOctet cs = some v) : v ≤ 255 := by
  unfold parseOctet at h
  split at h
  · rename_i hcond
    simp only [Bool.and_eq_true, decide_eq_true_eq] at hcond
    cases h
    exact hcond.2
  · exact Option.noConfusion h

theorem parseIpv4_le (s : String) (a b c d : Nat) (h : parseIpv4 s = some (a, b, c, d)) :
    a ≤ 255 ∧ b ≤ 255 ∧ c ≤ 255 ∧ d ≤ 255 := by
  unfold parseIpv4 at h
  split at h
  · split at h
    · rename_i he0 he1 he2 he3
      cases h
      exact ⟨parseOctet_le _ _ he0, parseOctet_le _ _ he1,
        parseOctet_le _ _ he2, parseOctet_le _ _ he3⟩
    · exact Option.noConfusion h
  · exact Option.noConfusion h

theorem generate_soc_id_eq (ip : String) (a b c d : Nat)
    (h : parseIpv4 ip = some (a, b, c, d)) :
    DataStore.generate_soc_id ip = Except.ok (formatIp a b c (d / 10 * 10)) := by
  unfold DataStore.generate_soc_id
  rw [h]

theorem generate_board_id_eq (ip : String) (a b c d : Nat)
    (h : parseIpv4 ip = some (a, b, c, d)) :
    DataStore.generate_board_id ip = Except.ok (formatIp a b c (d / 100 * 100)) := by
  unfold DataStore.generate_board_id
  rw [h]

theorem generate_board_id_of_soc_id (ip : String) (a b c d : Nat)
    (h : parseIpv4 ip = some (a, b, c, d)) :
    DataStore.generate_board_id (formatIp a b c (d / 10 * 10)) =
      DataStore.generate_board_id ip := by
  obtain ⟨ha, hb, hc, hd⟩ := parseIpv4_le ip a b c d h
  have h10 : d / 10 * 10 ≤ 255 := le_trans (Nat.div_mul_le_self d 10) hd
  rw [generate_board_id_eq ip a b c d h]
  rw [generate_board_id_eq (formatIp a b c (d / 10 * 10)) a b c (d / 10 * 10)
    (parseIpv4_formatIp a b c (d / 10 * 10) ha hb hc h10)]
  have harith : d / 10 * 10 / 100 * 100 = d / 100 * 100 := by omega
  rw [harith]

theorem recalc_nodes (s : SocInfo) : (SocInfo.recalculate_totals s).nodes = s.nodes := rfl

theorem recalc_soc_id (s : SocInfo) : (SocInfo.recalculate_totals s).soc_id = s.soc_id := rfl

theorem socTotalsOK_recalc (s : SocInfo) : socTotalsOK (SocInfo.recalculate_totals s) :=
  ⟨rfl, rfl, rfl, rfl, rfl, rfl, rfl, rfl, rfl, rfl⟩

theorem recalcB_nodes (b : BoardInfo) : (BoardInfo.recalculate_totals b).nodes = b.nodes := rfl

theorem recalcB_board_id (b : BoardInfo) :
    (BoardInfo.recalculate_totals b).board_id = b.board_id := rfl

theorem boardTotalsOK_recalc (b : BoardInfo) : boardTotalsOK (BoardInfo.recalculate_totals b) :=
  ⟨rfl, rfl, rfl, rfl, rfl, rfl, rfl, rfl, rfl, rfl⟩

theorem update_with_node_nodes (s : SocInfo) (n : NodeInfo) :
    (SocInfo.update_with_node s n).nodes = upsertNodeList s.nodes n := rfl

theorem SocInfo_new_nodes (sid : String) (n : NodeInfo) :
    (SocInfo.new sid n).nodes = [n] := rfl

theorem updateB_with_node_nodes (b : BoardInfo) (n : NodeInfo) :
    (BoardInfo.update_with_node b n).nodes = upsertNodeList b.nodes n := rfl

theorem BoardInfo_new_nodes (bid : String) (n : NodeInfo) :
    (BoardInfo.new bid n).nodes = [n] := rfl

theorem socWF_new (sid : String) (n : NodeInfo)
    (h : DataStore.generate_soc_id n.ip = Except.ok sid) : SocWF sid (SocInfo.new sid n) := by
  refine ⟨rfl, ?_, ?_, ?_, socTotalsOK_recalc _⟩
  · rw [SocInfo_new_nodes]
    simp
  · rw [SocInfo_new_nodes]
    simp [namesOf]
  · intro r hr
    rw [SocInfo_new_nodes, List.mem_singleton] at hr
    subst hr
    exact h

theorem socWF_update (sid : String) (s : SocInfo) (n : NodeInfo)
    (hwf : SocWF sid s) (h : DataStore.generate_soc_id n.ip = Except.ok sid) :
    SocWF sid (SocInfo.update_with_node s n) := by
  refine ⟨hwf.id_eq, ?_, ?_, ?_, socTotalsOK_recalc _⟩
  · rw [update_with_node_nodes]
    exact upsertNodeList_ne_nil s.nodes n
  · rw [update_with_node_nodes]
    exact namesOf_upsert_nodup s.nodes n hwf.names_nodup
  · intro r hr
    rw [update_with_node_nodes] at hr
    rcases mem_upsert r n s.nodes hr with h1 | h1
    · subst h1
      exact h
    · exact hwf.mem_ip r h1

theorem boardWF_new (bid : String) (n : NodeInfo)
    (h : DataStore.generate_board_id n.ip = Except.ok bid) :
    BoardWF bid (BoardInfo.new bid n) := by
  refine ⟨rfl, ?_, ?_, ?_, boardTotalsOK_recalc _⟩
  · rw [BoardInfo_new_nodes]
    simp
  · rw [BoardInfo_new_nodes]
    simp [namesOf]
  · intro r hr
    rw [BoardInfo_new_nodes, List.mem_singleton] at hr
    subst hr
    exact h

theorem boardWF_update (bid : String) (b : BoardInfo) (n : NodeInfo)
    (hwf : BoardWF bid b) (h : DataStore.generate_board_id n.ip = Except.ok bid) :
    BoardWF bid (BoardInfo.update_with_node b n) := by
  refine ⟨hwf.id_eq, ?_, ?_, ?_, boardTotalsOK_recalc _⟩
  · rw [updateB_with_node_nodes]
    exact upsertNodeList_ne_nil b.nodes n
  · rw [updateB_with_node_nodes]
    exact namesOf_upsert_nodup b.nodes n hwf.names_nodup
  · intro r hr
    rw [updateB_with_node_nodes] at hr
    rcases mem_upsert r n b.nodes hr with h1 | h1
    · subst h1
      exact h
    · exact hwf.mem_ip r h1

theorem boardWF_set_socs (bid : String) (b : BoardInfo) (F : List SocInfo)
    (h : BoardWF bid b) : BoardWF bid { b with socs := F } :=
  ⟨h.id_eq, h.nonempty, h.names_nodup, h.mem_ip, h.totals⟩

theorem boardTotalsOK_set_socs (b : BoardInfo) (F : List SocInfo)
    (h : boardTotalsOK b) : boardTotalsOK { b with socs := F } := h

theorem store_node_info_ok_shape (ds : DataStore) (n : NodeInfo) (a b c d : Nat)
    (hp : parseIpv4 n.ip = some (a, b, c, d)) :
    ds.store_node_info n = Except.ok
      (DataStore.update_board_info
        (DataStore.update_soc_info
          { ds with nodes := mapInsert n.node_name n ds.nodes }
          (formatIp a b c (d / 10 * 10)) n)
        (formatIp a b c (d / 100 * 100)) n) := by
  unfold DataStore.store_node_info
  rw [hp, generate_soc_id_eq n.ip a b c d hp, generate_board_id_eq n.ip a b c d hp]

theorem update_soc_info_shape (ds : DataStore) (S : String) (n : NodeInfo)
    (hinv : ∀ sid s, mapLookup sid ds.socs = some s → SocWF sid s)
    (hS : DataStore.generate_soc_id n.ip = Except.ok S) :
    ∃ s_new,
      DataStore.update_soc_info ds S n = { ds with socs := mapInsert S s_new ds.socs } ∧
      SocWF S s_new ∧
      findNamed n.node_name s_new.nodes = some n ∧
      (∀ y, y ≠ n.node_name → ∀ s0, mapLookup S ds.socs = some s0 →
        findNamed y s_new.nodes = findNamed y s0.nodes) := by
  rcases hlookS : mapLookup S ds.socs with _ | s_old
  · refine ⟨SocInfo.new S n, ?_, socWF_new S n hS, ?_, ?_⟩
    · simp only [DataStore.update_soc_info, hlookS]
    · rw [SocInfo_new_nodes]
      simp [findNamed]
    · intro y hy s0 h0
      exact Option.noConfusion h0
  · refine ⟨SocInfo.update_with_node s_old n, ?_,
      socWF_update S s_old n (hinv S s_old hlookS) hS, ?_, ?_⟩
    · simp only [DataStore.update_soc_info, hlookS]
    · rw [update_with_node_nodes]
      exact findNamed_upsert_self s_old.nodes n
    · intro y hy s0 h0
      cases h0
      rw [update_with_node_nodes]
      exact findNamed_upsert_other y s_old.nodes n hy

theorem update_board_info_shape (ds : DataStore) (B : String) (n : NodeInfo)
    (hinv : ∀ bid b, mapLookup bid ds.boards = some b → BoardWF bid b)
    (hB : DataStore.generate_board_id n.ip = Except.ok B) :
    ∃ b_mid,
      DataStore.update_board_info ds B n =
        { ds with boards :=
            mapInsert B { b_mid with socs := boardSocsFilter ds.socs B } ds.boards } ∧
      BoardWF B b_mid ∧
      findNamed n.node_name b_mid.nodes = some n ∧
      (∀ y, y ≠ n.node_name → ∀ b0, mapLookup B ds.boards = some b0 →
        findNamed y b_mid.nodes = findNamed y b0.nodes) := by
  rcases hlookB : mapLookup B ds.boards with _ | b_old
  · refine ⟨BoardInfo.new B n, ?_, boardWF_new B n hB, ?_, ?_⟩
    · simp only [DataStore.update_board_info, hlookB, DataStore.update_board_socs,
        mapLookup_mapInsert_self, mapInsert_mapInsert]
    · rw [BoardInfo_new_nodes]
      simp [findNamed]
    · intro y hy b0 h0
      exact Option.noConfusion h0
  · refine ⟨BoardInfo.update_with_node b_old n, ?_,
      boardWF_update B b_old n (hinv B b_old hlookB) hB, ?_, ?_⟩
    · simp only [DataStore.update_board_info, hlookB, DataStore.update_board_socs,
        mapLookup_mapInsert_self, mapInsert_mapInsert]
    · rw [updateB_with_node_nodes]
      exact findNamed_upsert_self b_old.nodes n
    · intro y hy b0 h0
      cases h0
      rw [updateB_with_node_nodes]
      exact findNamed_upsert_other y b_old.nodes n hy

theorem storeInv_preserved (ds ds' : DataStore) (n : NodeInfo)
    (hinv : StoreInv ds) (h : ds.store_node_info n = Except.ok ds') : StoreInv ds' := by
  rcases hparse : parseIpv4 n.ip with _ | ⟨a, b, c, d⟩
  · simp [DataStore.store_node_info, hparse] at h
  · have hS := generate_soc_id_eq n.ip a b c d hparse
    have hB := generate_board_id_eq n.ip a b c d hparse
    have hBS : DataStore.generate_board_id (formatIp a b c (d / 10 * 10)) =
        Except.ok (formatIp a b c (d / 100 * 100)) := by
      rw [generate_board_id_of_soc_id n.ip a b c d hparse]
      exact hB
    rw [store_node_info_ok_shape ds n a b c d hparse] at h
    obtain ⟨s_new, hsoc_eq, hwfS, hfindS, hfindS_o⟩ :=
      update_soc_info_shape { ds with nodes := mapInsert n.node_name n ds.nodes }
        (formatIp a b c (d / 10 * 10)) n
        (fun sid s hs => hinv.soc_wf sid s hs) hS
    dsimp only at hsoc_eq
    rw [hsoc_eq] at h
    obtain ⟨b_mid, hboard_eq, hwfB, hfindB, hfindB_o⟩ :=
      update_board_info_shape
        { ds with
          nodes := mapInsert n.node_name n ds.nodes
          socs := mapInsert (formatIp a b c (d / 10 * 10)) s_new ds.socs }
        (formatIp a b c (d / 100 * 100)) n
        (fun bid bb hb => hinv.board_wf bid bb hb) hB
    dsimp only at hboard_eq
    rw [hboard_eq] at h
    have hds' : ds' =
        ⟨mapInsert n.node_name n ds.nodes,
          mapInsert (formatIp a b c (d / 10 * 10)) s_new ds.socs,
          mapInsert (formatIp a b c (d / 100 * 100))
            { b_mid with
              socs := boardSocsFilter
                (mapInsert (formatIp a b c (d / 10 * 10)) s_new ds.socs)
                (formatIp a b c (d / 100 * 100)) }
            ds.boards⟩ :=
      (Except.ok.inj h).symm.trans rfl
    have hfilter : ∀ β, β ≠ formatIp a b c (d / 100 * 100) →
        boardSocsFilter (mapInsert (formatIp a b c (d / 10 * 10)) s_new ds.socs) β
          = boardSocsFilter ds.socs β := by
      intro β hβ
      unfold boardSocsFilter
      apply filter_values_mapInsert
      · simp only [socBelongsTo, DataStore.generate_board_id_from_soc_id, hwfS.id_eq, hBS]
        exact beq_eq_false_iff_ne.2 (fun hc => hβ hc.symm)
      · intro w hw
        have hwfw := hinv.soc_wf _ w hw
        simp only [socBelongsTo, DataStore.generate_board_id_from_soc_id, hwfw.id_eq, hBS]
        exact beq_eq_false_iff_ne.2 (fun hc => hβ hc.symm)
    rw [hds']
    refine ⟨?_, ?_, ?_, ?_, ?_, ?_, ?_, ?_, ?_⟩
    · exact mapKeys_nodup_mapInsert _ _ _ hinv.nodes_keys
    · exact mapKeys_nodup_mapInsert _ _ _ hinv.socs_keys
    · exact mapKeys_nodup_mapInsert _ _ _ hinv.boards_keys
    · intro sid s hs
      by_cases hsid : sid = formatIp a b c (d / 10 * 10)
      · subst hsid
        rw [mapLookup_mapInsert_self] at hs
        cases hs
        exact hwfS
      · rw [mapLookup_mapInsert_ne _ _ _ _ hsid] at hs
        exact hinv.soc_wf sid s hs
    · intro bid bb hb
      by_cases hbid : bid = formatIp a b c (d / 100 * 100)
      · subst hbid
        rw [mapLookup_mapInsert_self] at hb
        cases hb
        exact boardWF_set_socs _ _ _ hwfB
      · rw [mapLookup_mapInsert_ne _ _ _ _ hbid] at hb
        exact hinv.board_wf bid bb hb
    · intro bid bb hb
      by_cases hbid : bid = formatIp a b c (d / 100 * 100)
      · subst hbid
        rw [mapLookup_mapInsert_self] at hb
        cases hb
        rfl
      · rw [mapLookup_mapInsert_ne _ _ _ _ hbid] at hb
        show bb.socs = boardSocsFilter
          (mapInsert (formatIp a b c (d / 10 * 10)) s_new ds.socs) bid
        rw [hfilter bid hbid]
        exact hinv.board_socs bid bb hb
    · intro name r hr
      by_cases hname : name = n.node_name
      · subst hname
        rw [mapLookup_mapInsert_self] at hr
        cases hr
        rfl
      · rw [mapLookup_mapInsert_ne _ _ _ _ hname] at hr
        exact hinv.node_name_eq name r hr
    · intro name r hr
      by_cases hname : name = n.node_name
      · subst hname
        rw [mapLookup_mapInsert_self] at hr
        cases hr
        exact ⟨formatIp a b c (d / 10 * 10), s_new, hS, mapLookup_mapInsert_self .., hfindS⟩
      · rw [mapLookup_mapInsert_ne _ _ _ _ hname] at hr
        obtain ⟨sid0, s0, hgen, hlook0, hfind0⟩ := hinv.node_soc name r hr
        by_cases hsid0 : sid0 = formatIp a b c (d / 10 * 10)
        · refine ⟨sid0, s_new, hgen, ?_, ?_⟩
          · rw [hsid0]
            exact mapLookup_mapInsert_self ..
          · rw [hfindS_o name hname s0 (by rw [← hsid0]; exact hlook0)]
            exact hfind0
        · refine ⟨sid0, s0, hgen, ?_, hfind0⟩
          rw [mapLookup_mapInsert_ne _ _ _ _ hsid0]
          exact hlook0
    · intro name r hr
      by_cases hname : name = n.node_name
      · subst hname
        rw [mapLookup_mapInsert_self] at hr
        cases hr
        exact ⟨formatIp a b c (d / 100 * 100),
          { b_mid with
            socs := boardSocsFilter
              (mapInsert (formatIp a b c (d / 10 * 10)) s_new ds.socs)
              (formatIp a b c (d / 100 * 100)) },
          hB, mapLookup_mapInsert_self .., hfindB⟩
      · rw [mapLookup_mapInsert_ne _ _ _ _ hname] at hr
        obtain ⟨bid0, b0, hgen, hlook0, hfind0⟩ := hinv.node_board name r hr
        by_cases hbid0 : bid0 = formatIp a b c (d / 100 * 100)
        · refine ⟨bid0,
            { b_mid with
              socs := boardSocsFilter
                (mapInsert (formatIp a b c (d / 10 * 10)) s_new ds.socs)
                (formatIp a b c (d / 100 * 100)) },
            hgen, ?_, ?_⟩
          · rw [hbid0]
            exact mapLookup_mapInsert_self ..
          · show findNamed name b_mid.nodes = some r
            rw [hfindB_o name hname b0 (by rw [← hbid0]; exact hlook0)]
            exact hfind0
        · refine ⟨bid0, b0, hgen, ?_, hfind0⟩
          rw [mapLookup_mapInsert_ne _ _ _ _ hbid0]
          exact hlook0

theorem storeInv_new : StoreInv DataStore.new :=
  ⟨List.nodup_nil, List.nodup_nil, List.nodup_nil,
    fun _ _ hr => Option.noConfusion hr,
    fun _ _ hr => Option.noConfusion hr,
    fun _ _ hr => Option.noConfusion hr,
    fun _ _ hr => Option.noConfusion hr,
    fun _ _ hr => Option.noConfusion hr,
    fun _ _ hr => Option.noConfusion hr⟩

theorem reachable_storeInv (ds : DataStore) (h : Reachable ds) : StoreInv ds := by
  induction h with
  | empty => exact storeInv_new
  | step ds0 n ds1 _ hstep ih => exact storeInv_preserved ds0 ds1 n ih hstep

/-- C1: after every successful store_node_info call on a reachable store,
every stored SocInfo and BoardInfo has each summed field equal to the
exact sum of that field over its current member list and each averaged
field equal to the arithmetic mean over the current member list, with
zero for both averaged fields when the member list is empty. -/
theorem c1_totals_after_upsert (ds ds' : DataStore) (n : NodeInfo)
    (hr : Reachable ds) (h : ds.store_node_info n = Except.ok ds') :
    (∀ sid s, mapLookup sid ds'.socs = some s → socTotalsOK s) ∧
    (∀ bid b, mapLookup bid ds'.boards = some b → boardTotalsOK b) := by
  have hinv := reachable_storeInv ds' (Reachable.step ds n ds' hr h)
  exact ⟨fun sid s hs => (hinv.soc_wf sid s hs).totals,
    fun bid b hb => (hinv.board_wf bid b hb).totals⟩

theorem c1_totals_after_upsert_witness :
    DataStore.new.store_node_info cn1 = Except.ok scn1 ∧
    socTotalsOK (SocInfo.new "10.0.0.200" cn1) :=
  ⟨rfl,
    (c1_totals_after_upsert DataStore.new scn1 cn1 Reachable.empty rfl).1
      "10.0.0.200" (SocInfo.new "10.0.0.200" cn1) rfl⟩

/-- C9: in every reachable store state, every stored SocInfo and
BoardInfo has a non-empty member list, so the zero-member branch of the
recompute rule is never exercised. -/
theorem c9_members_nonempty (ds : DataStore) (hr : Reachable ds) :
    (∀ sid s, mapLookup sid ds.socs = some s → s.nodes ≠ []) ∧
    (∀ bid b, mapLookup bid ds.boards = some b → b.nodes ≠ []) :=
  have hinv := reachable_storeInv ds hr
  ⟨fun sid s hs => (hinv.soc_wf sid s hs).nonempty,
    fun bid b hb => (hinv.board_wf bid b hb).nonempty⟩

theorem c9_members_nonempty_witness :
    (SocInfo.new "10.0.0.200" cn1).nodes ≠ [] :=
  (c9_members_nonempty scn1 (Reachable.step DataStore.new cn1 scn1 Reachable.empty rfl)).1
    "10.0.0.200" (SocInfo.new "10.0.0.200" cn1) rfl

/-- C2: in every reachable store, every record of the node mapping
appears exactly once in the member list of exactly one stored SocInfo
(the one derived from its address) and exactly once in exactly one
stored BoardInfo, and every board's SoC list holds exactly the stored
SocInfos whose identifier maps to that board via the board rule. -/
theorem c2_membership (ds : DataStore) (hr : Reachable ds) :
    (∀ name r, mapLookup name ds.nodes = some r →
      (∃ sid s, DataStore.generate_soc_id r.ip = Except.ok sid ∧
        mapLookup sid ds.socs = some s ∧ s.nodes.count r = 1 ∧
        ∀ sid' s', mapLookup sid' ds.socs = some s' → r ∈ s'.nodes → sid' = sid) ∧
      (∃ bid b, DataStore.generate_board_id r.ip = Except.ok bid ∧
        mapLookup bid ds.boards = some b ∧ b.nodes.count r = 1 ∧
        ∀ bid' b', mapLookup bid' ds.boards = some b' → r ∈ b'.nodes → bid' = bid)) ∧
    (∀ bid b, mapLookup bid ds.boards = some b →
      ∀ s : SocInfo, s ∈ b.socs ↔
        ∃ sid, mapLookup sid ds.socs = some s ∧
          DataStore.generate_board_id_from_soc_id s.soc_id = Except.ok bid) := by
  have hinv := reachable_storeInv ds hr
  constructor
  · intro name r hnr
    constructor
    · obtain ⟨sid, s, hgen, hlook, hfind⟩ := hinv.node_soc name r hnr
      refine ⟨sid, s, hgen, hlook, ?_, ?_⟩
      · exact count_eq_one_of_names_nodup r s.nodes
          (hinv.soc_wf sid s hlook).names_nodup (findNamed_mem name s.nodes r hfind)
      · intro sid' s' hlook' hmem'
        have h1 := (hinv.soc_wf sid' s' hlook').mem_ip r hmem'
        rw [hgen] at h1
        exact (Except.ok.inj h1).symm
    · obtain ⟨bid, b, hgen, hlook, hfind⟩ := hinv.node_board name r hnr
      refine ⟨bid, b, hgen, hlook, ?_, ?_⟩
      · exact count_eq_one_of_names_nodup r b.nodes
          (hinv.board_wf bid b hlook).names_nodup (findNamed_mem name b.nodes r hfind)
      · intro bid' b' hlook' hmem'
        have h1 := (hinv.board_wf bid' b' hlook').mem_ip r hmem'
        rw [hgen] at h1
        exact (Except.ok.inj h1).symm
  · intro bid b hb s
    rw [hinv.board_socs bid b hb]
    unfold boardSocsFilter
    constructor
    · intro hmem
      rw [List.mem_filter] at hmem
      obtain ⟨hval, hpred⟩ := hmem
      rw [List.mem_map] at hval
      obtain ⟨⟨k, v⟩, hkv, hsnd⟩ := hval
      have hv : s = v := hsnd.symm
      subst hv
      refine ⟨k, mem_mapLookup_of_nodup k _ _ hinv.socs_keys hkv, ?_⟩
      cases hgb : DataStore.generate_board_id_from_soc_id s.soc_id with
      | ok idb =>
        rw [socBelongsTo, hgb] at hpred
        rw [beq_iff_eq .. |>.1 hpred]
      | error e =>
        rw [socBelongsTo, hgb] at hpred
        exact Bool.noConfusion hpred
    · rintro ⟨sid, hlook, hgb⟩
      rw [List.mem_filter]
      refine ⟨?_, ?_⟩
      · rw [List.mem_map]
        exact ⟨(sid, s), mapLookup_mem sid s _ hlook, rfl⟩
      · rw [socBelongsTo, hgb]
        exact beq_self_eq_true bid

theorem c2_membership_witness :
    ∃ sid s, DataStore.generate_soc_id cn1.ip = Except.ok sid ∧
      mapLookup sid scn1.socs = some s ∧ s.nodes.count cn1 = 1 ∧
      ∀ sid' s', mapLookup sid' scn1.socs = some s' → cn1 ∈ s'.nodes → sid' = sid :=
  ((c2_membership scn1 (Reachable.step DataStore.new cn1 scn1 Reachable.empty rfl)).1
    "n1" cn1 rfl).1

/-- C3: a string accepted by the IPv4 parser with octets a, b, c, d
yields the SoC identifier a.b.c.(d / 10 * 10) and the board identifier
a.b.c.(d / 100 * 100) under integer division, and a string rejected by
the parser makes both generators fail with the invalid-address error. -/
theorem c3_id_generation (ip : String) :
    (∀ a b c d, parseIpv4 ip = some (a, b, c, d) →
      DataStore.generate_soc_id ip = Except.ok (formatIp a b c (d / 10 * 10)) ∧
      DataStore.generate_board_id ip = Except.ok (formatIp a b c (d / 100 * 100))) ∧
    (parseIpv4 ip = none →
      DataStore.generate_soc_id ip = Except.error ("Invalid IP address: " ++ ip) ∧
      DataStore.generate_board_id ip = Except.error ("Invalid IP address: " ++ ip)) := by
  constructor
  · intro a b c d hp
    exact ⟨generate_soc_id_eq ip a b c d hp, generate_board_id_eq ip a b c d hp⟩
  · intro hp
    constructor
    · unfold DataStore.generate_soc_id
      rw [hp]
    · unfold DataStore.generate_board_id
      rw [hp]

theorem c3_id_generation_witness :
    (DataStore.generate_soc_id "10.0.0.201" = Except.ok (formatIp 10 0 0 (201 / 10 * 10)) ∧
      DataStore.generate_board_id "10.0.0.201" =
        Except.ok (formatIp 10 0 0 (201 / 100 * 100))) ∧
    (DataStore.generate_soc_id "999.1.1.1" =
        Except.error ("Invalid IP address: " ++ "999.1.1.1") ∧
      DataStore.generate_board_id "999.1.1.1" =
        Except.error ("Invalid IP address: " ++ "999.1.1.1")) :=
  ⟨(c3_id_generation "10.0.0.201").1 10 0 0 201 (by decide),
    (c3_id_generation "999.1.1.1").2 (by decide)⟩

/-- C4: for every valid address, deriving the board identifier from the
address's own SoC identifier gives the same result as deriving it from
the address directly. -/
theorem c4_board_id_consistent (ip sid : String)
    (h : DataStore.generate_soc_id ip = Except.ok sid) :
    DataStore.generate_board_id sid = DataStore.generate_board_id ip := by
  rcases hp : parseIpv4 ip with _ | ⟨a, b, c, d⟩
  · simp [DataStore.generate_soc_id, hp] at h
  · rw [generate_soc_id_eq ip a b c d hp] at h
    cases h
    exact generate_board_id_of_soc_id ip a b c d hp

theorem c4_board_id_consistent_witness :
    DataStore.generate_board_id "10.0.0.200" = DataStore.generate_board_id "10.0.0.201" :=
  c4_board_id_consistent "10.0.0.201" "10.0.0.200" (by rfl)

/-- C5: store_node_info fails exactly when the record's address does not
parse, the failure is the invalid-address error, and a failing call
leaves the store untouched; in particular the address 999.1.1.1 is
rejected with the store unchanged. -/
theorem c5_error_handling (ds : DataStore) (n : NodeInfo) :
    ((∃ e, ds.store_node_info n = Except.error e) ↔ parseIpv4 n.ip = none) ∧
    (parseIpv4 n.ip = none →
      ds.store_node_info n = Except.error ("Invalid IP address format: " ++ n.ip) ∧
      runStore ds n = ds) ∧
    (n.ip = "999.1.1.1" →
      ds.store_node_info n = Except.error ("Invalid IP address format: 999.1.1.1") ∧
      runStore ds n = ds) := by
  have herr : parseIpv4 n.ip = none →
      ds.store_node_info n = Except.error ("Invalid IP address format: " ++ n.ip) := by
    intro hp
    unfold DataStore.store_node_info
    rw [hp]
  have hrun : parseIpv4 n.ip = none → runStore ds n = ds := by
    intro hp
    unfold runStore
    rw [herr hp]
  refine ⟨⟨?_, fun hp => ⟨_, herr hp⟩⟩, fun hp => ⟨herr hp, hrun hp⟩, ?_⟩
  · rintro ⟨e, he⟩
    rcases hp : parseIpv4 n.ip with _ | ⟨a, b, c, d⟩
    · rfl
    · rw [store_node_info_ok_shape ds n a b c d hp] at he
      exact Except.noConfusion he
  · intro hip
    have hp : parseIpv4 n.ip = none := by
      rw [hip]
      decide
    refine ⟨?_, hrun hp⟩
    rw [herr hp, hip]
    have happ : ("Invalid IP address format: " ++ "999.1.1.1" : String)
        = "Invalid IP address format: 999.1.1.1" := by decide
    rw [happ]

theorem c5_error_handling_witness :
    DataStore.new.store_node_info cbad =
      Except.error ("Invalid IP address format: 999.1.1.1") ∧
    runStore DataStore.new cbad = DataStore.new :=
  (c5_error_handling DataStore.new cbad).2.2 rfl

theorem replaceNode_idem (n : NodeInfo) (l : List NodeInfo) :
    replaceNode n (replaceNode n l) = replaceNode n l := by
  induction l with
  | nil => rfl
  | cons m ms ih =>
    by_cases h0 : m.node_name = n.node_name
    · simp [replaceNode, h0]
    · simp [replaceNode, h0, ih]

theorem replaceNode_append_fresh (n : NodeInfo) (l : List NodeInfo)
    (h : hasNodeNamed n.node_name l = false) :
    replaceNode n (l ++ [n]) = l ++ [n] := by
  induction l with
  | nil => simp [replaceNode]
  | cons m ms ih =>
    rw [hasNodeNamed_cons] at h
    have hsplit := Bool.or_eq_false_iff.1 h
    have hm : m.node_name ≠ n.node_name := (beq_eq_false_iff_ne ..).1 hsplit.1
    simp [replaceNode, hm, ih hsplit.2]

theorem hasNodeNamed_upsert_self (l : List NodeInfo) (n : NodeInfo) :
    hasNodeNamed n.node_name (upsertNodeList l n) = true := by
  rw [hasNodeNamed_iff]
  exact List.mem_map_of_mem NodeInfo.node_name (self_mem_upsert l n)

theorem upsertNodeList_idem (l : List NodeInfo) (n : NodeInfo) :
    upsertNodeList (upsertNodeList l n) n = upsertNodeList l n := by
  rw [show upsertNodeList (upsertNodeList l n) n
      = if hasNodeNamed n.node_name (upsertNodeList l n) then replaceNode n (upsertNodeList l n)
        else upsertNodeList l n ++ [n] from rfl]
  rw [hasNodeNamed_upsert_self l n]
  rw [if_pos rfl]
  cases hh : hasNodeNamed n.node_name l with
  | true =>
    rw [show upsertNodeList l n = replaceNode n l from by simp [upsertNodeList, hh]]
    exact replaceNode_idem n l
  | false =>
    rw [show upsertNodeList l n = l ++ [n] from by simp [upsertNodeList, hh]]
    exact replaceNode_append_fresh n l hh

theorem upsertNodeList_self_singleton (n : NodeInfo) : upsertNodeList [n] n = [n] := by
  simp [upsertNodeList, hasNodeNamed, replaceNode]

theorem socInfo_update_idem (s : SocInfo) (n : NodeInfo) :
    SocInfo.update_with_node (SocInfo.update_with_node s n) n
      = SocInfo.update_with_node s n := by
  show SocInfo.recalculate_totals
      { SocInfo.recalculate_totals { s with nodes := upsertNodeList s.nodes n } with
        nodes := upsertNodeList (upsertNodeList s.nodes n) n }
    = SocInfo.recalculate_totals { s with nodes := upsertNodeList s.nodes n }
  rw [upsertNodeList_idem s.nodes n]
  exact rfl

theorem socInfo_update_new_idem (sid : String) (n : NodeInfo) :
    SocInfo.update_with_node (SocInfo.new sid n) n = SocInfo.new sid n := by
  show SocInfo.recalculate_totals { SocInfo.new sid n with nodes := upsertNodeList [n] n }
    = SocInfo.new sid n
  rw [upsertNodeList_self_singleton]
  exact rfl

theorem boardInfo_update_idem (b : BoardInfo) (n : NodeInfo) :
    BoardInfo.update_with_node (BoardInfo.update_with_node b n) n
      = BoardInfo.update_with_node b n := by
  show BoardInfo.recalculate_totals
      { BoardInfo.recalculate_totals { b with nodes := upsertNodeList b.nodes n } with
        nodes := upsertNodeList (upsertNodeList b.nodes n) n }
    = BoardInfo.recalculate_totals { b with nodes := upsertNodeList b.nodes n }
  rw [upsertNodeList_idem b.nodes n]
  exact rfl

theorem boardInfo_update_new_idem (bid : String) (n : NodeInfo) :
    BoardInfo.update_with_node (BoardInfo.new bid n) n = BoardInfo.new bid n := by
  show BoardInfo.recalculate_totals { BoardInfo.new bid n with nodes := upsertNodeList [n] n }
    = BoardInfo.new bid n
  rw [upsertNodeList_self_singleton]
  exact rfl

theorem boardInfo_update_set_socs (b : BoardInfo) (F : List SocInfo) (n : NodeInfo) :
    BoardInfo.update_with_node { b with socs := F } n
      = { BoardInfo.update_with_node b n with socs := F } := rfl

theorem update_soc_info_result (ds : DataStore) (S : String) (n : NodeInfo) :
    ∃ s1, DataStore.update_soc_info ds S n = { ds with socs := mapInsert S s1 ds.socs } ∧
      SocInfo.update_with_node s1 n = s1 := by
  rcases hlookS : mapLookup S ds.socs with _ | s_old
  · exact ⟨SocInfo.new S n, by simp only [DataStore.update_soc_info, hlookS],
      socInfo_update_new_idem S n⟩
  · exact ⟨SocInfo.update_with_node s_old n, by simp only [DataStore.update_soc_info, hlookS],
      socInfo_update_idem s_old n⟩

theorem update_board_info_result (ds : DataStore) (B : String) (n : NodeInfo) :
    ∃ b1, DataStore.update_board_info ds B n =
        { ds with boards :=
            mapInsert B { b1 with socs := boardSocsFilter ds.socs B } ds.boards } ∧
      BoardInfo.update_with_node b1 n = b1 := by
  rcases hlookB : mapLookup B ds.boards with _ | b_old
  · exact ⟨BoardInfo.new B n,
      by simp only [DataStore.update_board_info, hlookB, DataStore.update_board_socs,
        mapLookup_mapInsert_self, mapInsert_mapInsert],
      boardInfo_update_new_idem B n⟩
  · exact ⟨BoardInfo.update_with_node b_old n,
      by simp only [DataStore.update_board_info, hlookB, DataStore.update_board_socs,
        mapLookup_mapInsert_self, mapInsert_mapInsert],
      boardInfo_update_idem b_old n⟩

/-- C6: upserting the same record twice in a row from any starting
store succeeds on the second call and returns the state of the first
call unchanged, so every aggregate's derived totals are unchanged. -/
theorem c6_upsert_idempotent (ds ds1 : DataStore) (n : NodeInfo)
    (h : ds.store_node_info n = Except.ok ds1) :
    ds1.store_node_info n = Except.ok ds1 := by
  rcases hp : parseIpv4 n.ip with _ | ⟨a, b, c, d⟩
  · simp [DataStore.store_node_info, hp] at h
  · rw [store_node_info_ok_shape ds n a b c d hp] at h
    obtain ⟨s1, hsoc_eq, hsidem⟩ :=
      update_soc_info_result { ds with nodes := mapInsert n.node_name n ds.nodes }
        (formatIp a b c (d / 10 * 10)) n
    dsimp only at hsoc_eq
    rw [hsoc_eq] at h
    obtain ⟨b1, hboard_eq, hbidem⟩ :=
      update_board_info_result
        { ds with
          nodes := mapInsert n.node_name n ds.nodes
          socs := mapInsert (formatIp a b c (d / 10 * 10)) s1 ds.socs }
        (formatIp a b c (d / 100 * 100)) n
    dsimp only at hboard_eq
    rw [hboard_eq] at h
    have hds1 : ds1 =
        ⟨mapInsert n.node_name n ds.nodes,
          mapInsert (formatIp a b c (d / 10 * 10)) s1 ds.socs,
          mapInsert (formatIp a b c (d / 100 * 100))
            { b1 with
              socs := boardSocsFilter
                (mapInsert (formatIp a b c (d / 10 * 10)) s1 ds.socs)
                (formatIp a b c (d / 100 * 100)) }
            ds.boards⟩ :=
      (Except.ok.inj h).symm.trans rfl
    subst hds1
    rw [store_node_info_ok_shape _ n a b c d hp]
    dsimp only
    rw [mapInsert_mapInsert]
    rw [show DataStore.update_soc_info
        ⟨mapInsert n.node_name n ds.nodes,
          mapInsert (formatIp a b c (d / 10 * 10)) s1 ds.socs,
          mapInsert (formatIp a b c (d / 100 * 100))
            { b1 with
              socs := boardSocsFilter
                (mapInsert (formatIp a b c (d / 10 * 10)) s1 ds.socs)
                (formatIp a b c (d / 100 * 100)) }
            ds.boards⟩
        (formatIp a b c (d / 10 * 10)) n
        = ⟨mapInsert n.node_name n ds.nodes,
            mapInsert (formatIp a b c (d / 10 * 10)) s1 ds.socs,
            mapInsert (formatIp a b c (d / 100 * 100))
              { b1 with
                socs := boardSocsFilter
                  (mapInsert (formatIp a b c (d / 10 * 10)) s1 ds.socs)
                  (formatIp a b c (d / 100 * 100)) }
              ds.boards⟩ from by
      simp only [DataStore.update_soc_info, mapLookup_mapInsert_self]
      rw [hsidem, mapInsert_mapInsert]]
    rw [show DataStore.update_board_info
        ⟨mapInsert n.node_name n ds.nodes,
          mapInsert (formatIp a b c (d / 10 * 10)) s1 ds.socs,
          mapInsert (formatIp a b c (d / 100 * 100))
            { b1 with
              socs := boardSocsFilter
                (mapInsert (formatIp a b c (d / 10 * 10)) s1 ds.socs)
                (formatIp a b c (d / 100 * 100)) }
            ds.boards⟩
        (formatIp a b c (d / 100 * 100)) n
        = ⟨mapInsert n.node_name n ds.nodes,
            mapInsert (formatIp a b c (d / 10 * 10)) s1 ds.socs,
            mapInsert (formatIp a b c (d / 100 * 100))
              { b1 with
                socs := boardSocsFilter
                  (mapInsert (formatIp a b c (d / 10 * 10)) s1 ds.socs)
                  (formatIp a b c (d / 100 * 100)) }
              ds.boards⟩ from by
      simp only [DataStore.update_board_info, mapLookup_mapInsert_self,
        DataStore.update_board_socs, mapInsert_mapInsert]
      rw [boardInfo_update_set_socs, hbidem]]

theorem c6_upsert_idempotent_witness : scn1.store_node_info cn1 = Except.ok scn1 :=
  c6_upsert_idempotent DataStore.new scn1 cn1 rfl

/-- C7: the concrete scenario: after n1 at 10.0.0.201 (CPU 50, mem 40)
and n2 at 10.0.0.205 (CPU 70, mem 60), SoC 10.0.0.200 is the only SoC
and has 2 members, average CPU 60 and average memory 50; after n3 at
10.0.0.215 (CPU 10, mem 10) a second SoC 10.0.0.210 with 1 member
exists, and board 10.0.0.200 lists both SoCs, 3 member nodes and
average CPU (50 + 70 + 10) / 3. -/
theorem c7_scenario :
    (DataStore.new.store_node_info cn1).toOption = some scn1 ∧
    (scn1.store_node_info cn2).toOption = some scn2 ∧
    (scn2.store_node_info cn3).toOption = some scn3 ∧
    mapKeys scn2.socs = ["10.0.0.200"] ∧
    ((mapLookup "10.0.0.200" scn2.socs).map
        (fun s => (s.nodes.length, s.total_cpu_usage, s.total_mem_usage))
      = some (2, 60, 50)) ∧
    mapKeys scn3.socs = ["10.0.0.200", "10.0.0.210"] ∧
    ((mapLookup "10.0.0.210" scn3.socs).map (fun s => s.nodes.length) = some 1) ∧
    ((mapLookup "10.0.0.200" scn3.boards).map
        (fun b => (b.nodes.length, b.socs.map SocInfo.soc_id, b.total_cpu_usage))
      = some (3, ["10.0.0.200", "10.0.0.210"], (50 + 70 + 10) / 3)) := by
  have hreach2 : Reachable scn2 :=
    Reachable.step scn1 cn2 scn2
      (Reachable.step DataStore.new cn1 scn1 Reachable.empty rfl) rfl
  have hreach3 : Reachable scn3 := Reachable.step scn2 cn3 scn3 hreach2 rfl
  refine ⟨rfl, rfl, rfl, rfl, ?_, rfl, rfl, ?_⟩
  · obtain ⟨hcu, hmu, _⟩ :=
      ((reachable_storeInv scn2 hreach2).soc_wf "10.0.0.200" scn2soc rfl).totals
    have hn2 : scn2soc.nodes = [cn1, cn2] := rfl
    rw [hn2] at hcu hmu
    have hcpu : scn2soc.total_cpu_usage = 60 := by
      rw [hcu]
      norm_num [cn1, cn2]
    have hmem : scn2soc.total_mem_usage = 50 := by
      rw [hmu]
      norm_num [cn1, cn2]
    rw [show (mapLookup "10.0.0.200" scn2.socs).map
        (fun s => (s.nodes.length, s.total_cpu_usage, s.total_mem_usage))
        = some (scn2soc.nodes.length, scn2soc.total_cpu_usage, scn2soc.total_mem_usage) from rfl]
    rw [hcpu, hmem, show scn2soc.nodes.length = 2 from rfl]
  · obtain ⟨hcu, _⟩ :=
      ((reachable_storeInv scn3 hreach3).board_wf "10.0.0.200" scn3board rfl).totals
    have hn3 : scn3board.nodes = [cn1, cn2, cn3] := rfl
    rw [hn3] at hcu
    have hcpu : scn3board.total_cpu_usage = (50 + 70 + 10) / 3 := by
      rw [hcu]
      norm_num [cn1, cn2, cn3]
    rw [show (mapLookup "10.0.0.200" scn3.boards).map
        (fun b => (b.nodes.length, b.socs.map SocInfo.soc_id, b.total_cpu_usage))
        = some (scn3board.nodes.length, scn3board.socs.map SocInfo.soc_id,
            scn3board.total_cpu_usage) from rfl]
    rw [hcpu, show scn3board.nodes.length = 3 from rfl,
      show scn3board.socs.map SocInfo.soc_id = ["10.0.0.200", "10.0.0.210"] from rfl]

/-- C8: processing a container-inventory message never mutates the
aggregate store: the handler returns the store unchanged alongside the
log lines it prints. -/
theorem c8_container_list_pure (ds : DataStore) (cl : ContainerList) :
    (handle_container_list ds cl).1 = ds := rfl

theorem update_soc_info_shape_light (ds : DataStore) (S : String) (n : NodeInfo) :
    ∃ s_new,
      DataStore.update_soc_info ds S n = { ds with socs := mapInsert S s_new ds.socs } ∧
      n ∈ s_new.nodes := by
  rcases hlookS : mapLookup S ds.socs with _ | s_old
  · refine ⟨SocInfo.new S n, by simp only [DataStore.update_soc_info, hlookS], ?_⟩
    rw [SocInfo_new_nodes]
    simp
  · refine ⟨SocInfo.update_with_node s_old n,
      by simp only [DataStore.update_soc_info, hlookS], ?_⟩
    rw [update_with_node_nodes]
    exact self_mem_upsert s_old.nodes n

theorem update_board_info_shape_light (ds : DataStore) (B : String) (n : NodeInfo) :
    ∃ b_mid : BoardInfo,
      DataStore.update_board_info ds B n =
        { ds with boards :=
            mapInsert B { b_mid with socs := boardSocsFilter ds.socs B } ds.boards } ∧
      n ∈ b_mid.nodes := by
  rcases hlookB : mapLookup B ds.boards with _ | b_old
  · refine ⟨BoardInfo.new B n,
      by simp only [DataStore.update_board_info, hlookB, DataStore.update_board_socs,
        mapLookup_mapInsert_self, mapInsert_mapInsert], ?_⟩
    rw [BoardInfo_new_nodes]
    simp
  · refine ⟨BoardInfo.update_with_node b_old n,
      by simp only [DataStore.update_board_info, hlookB, DataStore.update_board_socs,
        mapLookup_mapInsert_self, mapInsert_mapInsert], ?_⟩
    rw [updateB_with_node_nodes]
    exact self_mem_upsert b_old.nodes n

/-- C10: store_node_info performs no validation of the node name: every
record with a parseable address, a record with the empty name included,
is accepted, stored in the node mapping under its name, and added to
the member lists of the matching SoC and board aggregates. -/
theorem c10_no_name_validation (ds : DataStore) (n : NodeInfo)
    (h : (parseIpv4 n.ip).isSome = true) :
    ∃ ds', ds.store_node_info n = Except.ok ds' ∧
      mapLookup n.node_name ds'.nodes = some n ∧
      (∃ sid s, DataStore.generate_soc_id n.ip = Except.ok sid ∧
        mapLookup sid ds'.socs = some s ∧ n ∈ s.nodes) ∧
      (∃ bid b, DataStore.generate_board_id n.ip = Except.ok bid ∧
        mapLookup bid ds'.boards = some b ∧ n ∈ b.nodes) := by
  rcases hp : parseIpv4 n.ip with _ | ⟨a, b, c, d⟩
  · rw [hp] at h
    exact Bool.noConfusion h
  · have hS := generate_soc_id_eq n.ip a b c d hp
    have hB := generate_board_id_eq n.ip a b c d hp
    obtain ⟨s_new, hseq, hsmem⟩ :=
      update_soc_info_shape_light { ds with nodes := mapInsert n.node_name n ds.nodes }
        (formatIp a b c (d / 10 * 10)) n
    dsimp only at hseq
    obtain ⟨b_mid, hbeq, hbmem⟩ :=
      update_board_info_shape_light
        { ds with
          nodes := mapInsert n.node_name n ds.nodes
          socs := mapInsert (formatIp a b c (d / 10 * 10)) s_new ds.socs }
        (formatIp a b c (d / 100 * 100)) n
    dsimp only at hbeq
    refine ⟨⟨mapInsert n.node_name n ds.nodes,
      mapInsert (formatIp a b c (d / 10 * 10)) s_new ds.socs,
      mapInsert (formatIp a b c (d / 100 * 100))
        { b_mid with
          socs := boardSocsFilter
            (mapInsert (formatIp a b c (d / 10 * 10)) s_new ds.socs)
            (formatIp a b c (d / 100 * 100)) }
        ds.boards⟩, ?_, ?_, ?_, ?_⟩
    · rw [store_node_info_ok_shape ds n a b c d hp, hseq, hbeq]
    · exact mapLookup_mapInsert_self ..
    · exact ⟨formatIp a b c (d / 10 * 10), s_new, hS, mapLookup_mapInsert_self .., hsmem⟩
    · exact ⟨formatIp a b c (d / 100 * 100),
        { b_mid with
          socs := boardSocsFilter
            (mapInsert (formatIp a b c (d / 10 * 10)) s_new ds.socs)
            (formatIp a b c (d / 100 * 100)) },
        hB, mapLookup_mapInsert_self .., hbmem⟩

theorem c10_no_name_validation_witness :
    ∃ ds', DataStore.new.store_node_info cnoname = Except.ok ds' ∧
      mapLookup cnoname.node_name ds'.nodes = some cnoname ∧
      (∃ sid s, DataStore.generate_soc_id cnoname.ip = Except.ok sid ∧
        mapLookup sid ds'.socs = some s ∧ cnoname ∈ s.nodes) ∧
      (∃ bid b, DataStore.generate_board_id cnoname.ip = Except.ok bid ∧
        mapLookup bid ds'.boards = some b ∧ cnoname ∈ b.nodes) :=
  c10_no_name_validation DataStore.new cnoname (by decide)





